import Mathlib

set_option linter.unusedVariables false

/-!
Verification of the Flux SRS pricing engines.

The repository ships several pricing engines.  The main one checked here is
the installed-base cost-plus engine (namespace SRS), which derives Year-1 and
Year-2+ per-unit prices from hardware, labor and overhead costs, applies
volume and contract-length discounts, enforces a minimum per-year price gap
between contract lengths, and rounds every final price up to a 20-dollar
increment.  A simplified 2-layer engine (namespace TwoLayer, 50-dollar
increment) and a later engine revision whose volume discount linearly
interpolates between tiers (namespace Interp) are embedded as well.

JavaScript numbers are modelled as real numbers (rationals for the
log-free engines); loops become structural recursions; object lookups with
a 0 fallback become total association-list lookups.
-/

namespace SRS

/-- The configuration record consumed by the installed-base cost-plus
engine, flattened from the nested CONFIG object.  Volume tiers are kept in
configuration order (descending thresholds); contract discounts are an
association list keyed by contract length in years. -/
structure Config where
  fluxBox : ℝ
  replacementCycleYears : ℝ
  licenseYear1 : ℝ
  licenseYear2Plus : ℝ
  hourlyRate : ℝ
  fteSalary : ℝ
  buildHoursPerUnit : ℝ
  supportHoursPerUnitYear : ℝ
  coordinationHoursPerUnit : ℝ
  supportDecayRate : ℝ
  supportFloor : ℝ
  scaleRefUnits : ℝ
  scaleSlope : ℝ
  scaleFloor : ℝ
  devMaintenanceFTEs : ℝ
  additionalAnnualCost : ℝ
  year1FixedPrice : ℝ
  year1ShiftFactor : ℝ
  marginYear2Plus : ℝ
  overheadYear1Factor : ℝ
  overheadCreditYears : ℝ
  year2BaselineYears : ℕ
  year2MinGap : ℝ
  volumeTiers : List (ℝ × ℝ)
  year1VolumeFactor : ℝ
  volumeDurationWeight : ℝ
  contractDiscounts : List (ℕ × ℝ)
  existingUnits : ℝ

/-- The concrete configuration shipped in config.js for this engine. -/
noncomputable def CONFIG : Config where
  fluxBox := 950
  replacementCycleYears := 5
  licenseYear1 := 1900
  licenseYear2Plus := 290
  hourlyRate := 75
  fteSalary := 60000
  buildHoursPerUnit := 4
  supportHoursPerUnitYear := 8
  coordinationHoursPerUnit := 4
  supportDecayRate := 9/10
  supportFloor := 5/8
  scaleRefUnits := 100
  scaleSlope := 7/20
  scaleFloor := 3/5
  devMaintenanceFTEs := 1
  additionalAnnualCost := 0
  year1FixedPrice := 2400
  year1ShiftFactor := 0
  marginYear2Plus := 1/5
  overheadYear1Factor := 0
  overheadCreditYears := 4
  year2BaselineYears := 10
  year2MinGap := 20
  volumeTiers := [(500, 1/4), (360, 1/5), (240, 3/20), (120, 1/10)]
  year1VolumeFactor := 1/2
  volumeDurationWeight := 1/4
  contractDiscounts := [(1, 0), (3, 1/50), (5, 3/50), (10, 7/100)]
  existingUnits := 0

/-- roundUp50 (the name is historical; this engine revision rounds to 20):
Math.ceil(value / 20) * 20. -/
noncomputable def roundUp50 (x : ℝ) : ℝ := ((⌈x / 20⌉ : ℤ) : ℝ) * 20

noncomputable def hardwareReserve (cfg : Config) : ℝ :=
  cfg.fluxBox / cfg.replacementCycleYears

noncomputable def annualUnits (monthlyRate : ℝ) : ℝ := monthlyRate * 12

noncomputable def totalCommitment (monthlyRate : ℝ) (commitYears : ℕ) : ℝ :=
  monthlyRate * 12 * commitYears

/-- Blend between annual units and total commitment, weight clamped to [0,1]. -/
noncomputable def discountBasisUnits (cfg : Config) (monthlyRate : ℝ)
    (commitYears : ℕ) : ℝ :=
  let a := annualUnits monthlyRate
  let w := max 0 (min 1 cfg.volumeDurationWeight)
  a * (1 - w) + a * commitYears * w

/-- Average installed base during a given year (linear ramp), floored at the
existing fleet. -/
noncomputable def avgInstalledBaseForYear (cfg : Config) (year : ℕ)
    (monthlyRate : ℝ) (commitYears : ℕ) (fleet : ℝ) : ℝ :=
  let a := annualUnits monthlyRate
  let unitsAdded := a * ((min year commitYears : ℕ) : ℝ)
  let avgBase := fleet + unitsAdded - (if year ≤ commitYears then a / 2 else 0)
  max fleet avgBase

/-- Support-hour scale efficiency: 1 at or below the reference installed
base, otherwise a clamped reciprocal-log curve. -/
noncomputable def scaleFactor (cfg : Config) (installBase : ℝ) : ℝ :=
  if installBase ≤ 0 ∨ installBase ≤ cfg.scaleRefUnits then 1
  else max cfg.scaleFloor (min 1
    (1 / (1 + cfg.scaleSlope * Real.logb 10 (installBase / cfg.scaleRefUnits))))

noncomputable def supportHoursForYear (cfg : Config) (year : ℕ)
    (monthlyRate : ℝ) (commitYears : ℕ) (fleet : ℝ) : ℝ :=
  cfg.supportHoursPerUnitYear *
    max cfg.supportFloor (cfg.supportDecayRate ^ (year - 1)) *
    scaleFactor cfg (avgInstalledBaseForYear cfg year monthlyRate commitYears fleet)

noncomputable def year1Cost (cfg : Config) (monthlyRate : ℝ) (commitYears : ℕ)
    (fleet : ℝ) : ℝ :=
  cfg.fluxBox + cfg.buildHoursPerUnit * cfg.hourlyRate +
    supportHoursForYear cfg 1 monthlyRate commitYears fleet * cfg.hourlyRate +
    cfg.coordinationHoursPerUnit * cfg.hourlyRate

noncomputable def year2CostForYear (cfg : Config) (year : ℕ) (monthlyRate : ℝ)
    (commitYears : ℕ) (fleet : ℝ) : ℝ :=
  supportHoursForYear cfg year monthlyRate commitYears fleet * cfg.hourlyRate +
    hardwareReserve cfg

/-- The accumulator of the JavaScript loops `for (yr = 2; yr <= e; yr++)`:
sum of f over the years 2 .. e. -/
noncomputable def sumFrom2 (f : ℕ → ℝ) : ℕ → ℝ
  | 0 => 0
  | n + 1 => sumFrom2 f n + (if 2 ≤ n + 1 then f (n + 1) else 0)

noncomputable def year2CostBlended (cfg : Config) (contractYears : ℕ)
    (monthlyRate : ℝ) (commitYears : ℕ) (fleet : ℝ) : ℝ :=
  let e := max 2 contractYears
  sumFrom2 (fun y => year2CostForYear cfg y monthlyRate commitYears fleet) e /
    ((e : ℝ) - 1)

noncomputable def annualOverhead (cfg : Config) : ℝ :=
  cfg.devMaintenanceFTEs * cfg.fteSalary + cfg.additionalAnnualCost

noncomputable def overheadPerUnitForYear (cfg : Config) (year : ℕ)
    (monthlyRate : ℝ) (commitYears : ℕ) (fleet : ℝ) : ℝ :=
  let avgBase := avgInstalledBaseForYear cfg year monthlyRate commitYears fleet
  if avgBase ≤ 0 then 0 else annualOverhead cfg / avgBase

noncomputable def overheadBlendedBase (cfg : Config) (contractYears : ℕ)
    (monthlyRate : ℝ) (commitYears : ℕ) (fleet : ℝ) : ℝ :=
  let e := max 2 contractYears
  sumFrom2 (fun y => overheadPerUnitForYear cfg y monthlyRate commitYears fleet) e /
    ((e : ℝ) - 1)

/-- Step lookup over the configured volume tiers (configuration order,
descending thresholds): first tier whose threshold is reached wins. -/
noncomputable def volumeDiscountAux : List (ℝ × ℝ) → ℝ → ℝ
  | [], _ => 0
  | t :: ts, u => if t.1 ≤ u then t.2 else volumeDiscountAux ts u

noncomputable def volumeDiscount (cfg : Config) (totalUnits : ℝ) : ℝ :=
  volumeDiscountAux cfg.volumeTiers totalUnits

/-- Association-list lookup modelling obj[key] with the engine's 0 fallback
(a configured 0 and an absent key both yield 0, exactly as the JavaScript
expression obj[key] does when fed through the trailing zero default). -/
noncomputable def lookupDiscount : List (ℕ × ℝ) → ℕ → ℝ
  | [], _ => 0
  | p :: ps, c => if p.1 = c then p.2 else lookupDiscount ps c

noncomputable def contractDiscount (cfg : Config) (contractYears : ℕ) : ℝ :=
  lookupDiscount cfg.contractDiscounts contractYears

noncomputable def year1ListPrice (cfg : Config) (monthlyRate : ℝ)
    (commitYears : ℕ) (contractYears : ℕ) (fleet : ℝ) : ℝ :=
  cfg.year1FixedPrice

noncomputable def year1BasePrice (cfg : Config) (monthlyRate : ℝ)
    (commitYears : ℕ) : ℝ :=
  let volumeDisc :=
    volumeDiscount cfg (discountBasisUnits cfg monthlyRate commitYears) *
      cfg.year1VolumeFactor
  roundUp50 (cfg.year1FixedPrice * (1 - volumeDisc))

noncomputable def year1ShiftAmount (cfg : Config) (monthlyRate : ℝ)
    (commitYears : ℕ) : ℝ :=
  max 0 (min 1 cfg.year1ShiftFactor) * year1BasePrice cfg monthlyRate commitYears

noncomputable def year1ShiftPerYear (cfg : Config) (monthlyRate : ℝ)
    (commitYears : ℕ) (contractYears : ℕ) : ℝ :=
  if contractYears ≤ 1 then 0
  else year1ShiftAmount cfg monthlyRate commitYears / ((contractYears : ℝ) - 1)

noncomputable def year1Price (cfg : Config) (monthlyRate : ℝ) (commitYears : ℕ)
    (contractYears : ℕ) (fleet : ℝ) : ℝ :=
  let basePrice := year1BasePrice cfg monthlyRate commitYears
  let shiftAmount := year1ShiftAmount cfg monthlyRate commitYears
  roundUp50 (max 0 (basePrice - shiftAmount) + cfg.licenseYear1)

/-- Blended Year-2+ overhead minus the Year-1 surplus credit. -/
noncomputable def overheadBlended (cfg : Config) (contractYears : ℕ)
    (monthlyRate : ℝ) (commitYears : ℕ) (fleet : ℝ) : ℝ :=
  let base := overheadBlendedBase cfg contractYears monthlyRate commitYears fleet
  if contractYears ≤ 1 then base
  else
    let y1Price := year1Price cfg monthlyRate commitYears contractYears fleet
    let y1Cost := year1Cost cfg monthlyRate commitYears fleet
    let y1Overhead :=
      overheadPerUnitForYear cfg 1 monthlyRate commitYears fleet *
        cfg.overheadYear1Factor
    let surplus := max 0 (y1Price - y1Cost - y1Overhead)
    let creditCap :=
      if 0 < cfg.overheadCreditYears then cfg.overheadCreditYears
      else (contractYears : ℝ) - 1
    let creditYears := max 1 (min ((contractYears : ℝ) - 1) creditCap)
    max 0 (base - surplus / creditYears)

/-- The margin-loaded net price local to year2ListPrice:
(blended cost + blended overhead) * (1 + Year-2+ margin), all taken at the
configured baseline contract length. -/
noncomputable def year2MinNetPrice (cfg : Config) (monthlyRate : ℝ)
    (commitYears : ℕ) (fleet : ℝ) : ℝ :=
  let baselineYears := max 2 cfg.year2BaselineYears
  (year2CostBlended cfg baselineYears monthlyRate commitYears fleet +
      overheadBlended cfg baselineYears monthlyRate commitYears fleet) *
    (1 + cfg.marginYear2Plus)

noncomputable def year2ListPrice (cfg : Config) (monthlyRate : ℝ)
    (commitYears : ℕ) (contractYears : ℕ) (fleet : ℝ) : ℝ :=
  let baselineYears := max 2 cfg.year2BaselineYears
  let minNetPrice := year2MinNetPrice cfg monthlyRate commitYears fleet
  let volumeDisc := volumeDiscount cfg (discountBasisUnits cfg monthlyRate commitYears)
  let baselineDisc := volumeDisc + contractDiscount cfg baselineYears
  minNetPrice / max (1/100) (1 - baselineDisc)

noncomputable def year2PriceRaw (cfg : Config) (monthlyRate : ℝ)
    (commitYears : ℕ) (contractYears : ℕ) (fleet : ℝ) : ℝ :=
  let listPrice := year2ListPrice cfg monthlyRate commitYears contractYears fleet
  let volumeDisc := volumeDiscount cfg (discountBasisUnits cfg monthlyRate commitYears)
  let contractDisc := contractDiscount cfg contractYears
  roundUp50 (listPrice * (1 - (volumeDisc + contractDisc))) +
    cfg.licenseYear2Plus +
    year1ShiftPerYear cfg monthlyRate commitYears contractYears

/-- Insert into an ascending list of contract lengths. -/
def insertAsc (x : ℕ) : List ℕ → List ℕ
  | [] => [x]
  | y :: ys => if x ≤ y then x :: y :: ys else y :: insertAsc x ys

def sortAsc : List ℕ → List ℕ
  | [] => []
  | x :: xs => insertAsc x (sortAsc xs)

/-- The configured contract-length terms greater than 1, sorted ascending. -/
def sortedTerms (cfg : Config) : List ℕ :=
  sortAsc (((cfg.contractDiscounts.map Prod.fst).filter (fun y => 1 < y)))

/-- The longest-to-shortest adjustment walk of the minimum-gap enforcement:
on each step the adjusted price is the raw price, or the previously adjusted
(next longer) price plus the gap, whichever is larger. -/
noncomputable def adjustWalk (raw : ℕ → ℝ) (minGap : ℝ) :
    List ℕ → Option ℝ → List (ℕ × ℝ)
  | [], _ => []
  | t :: ts, prev =>
    let adjusted :=
      match prev with
      | none => raw t
      | some p => max (raw t) (p + minGap)
    (t, adjusted) :: adjustWalk raw minGap ts (some adjusted)

noncomputable def lookupAdjusted : List (ℕ × ℝ) → ℕ → ℝ
  | [], _ => 0
  | p :: ps, c => if p.1 = c then p.2 else lookupAdjusted ps c

/-- Year-2+ price with minimum-gap enforcement across configured terms. -/
noncomputable def year2Price (cfg : Config) (monthlyRate : ℝ) (commitYears : ℕ)
    (contractYears : ℕ) (fleet : ℝ) : ℝ :=
  let minGap := cfg.year2MinGap
  let rawPrice := year2PriceRaw cfg monthlyRate commitYears contractYears fleet
  if minGap ≤ 0 then roundUp50 rawPrice
  else
    let terms := sortedTerms cfg
    if contractYears ∈ terms then
      roundUp50 (lookupAdjusted
        (adjustWalk (fun t => year2PriceRaw cfg monthlyRate commitYears t fleet)
          minGap terms.reverse none)
        contractYears)
    else roundUp50 rawPrice

noncomputable def contractPrice (cfg : Config) (monthlyRate : ℝ)
    (commitYears : ℕ) (contractYears : ℕ) (fleet : ℝ) : ℝ :=
  year1Price cfg monthlyRate commitYears contractYears fleet +
    year2Price cfg monthlyRate commitYears contractYears fleet *
      max 0 ((contractYears : ℝ) - 1)

/-! ### Shared lemmas about rounding and the discount lookups -/

theorem roundUp50_mono {x y : ℝ} (h : x ≤ y) : roundUp50 x ≤ roundUp50 y := by
  unfold roundUp50
  have : (⌈x / 20⌉ : ℤ) ≤ ⌈y / 20⌉ :=
    Int.ceil_le_ceil (by linarith)
  have h20 : (0:ℝ) < 20 := by norm_num
  exact mul_le_mul_of_nonneg_right (by exact_mod_cast this) (by norm_num)

theorem le_roundUp50 (x : ℝ) : x ≤ roundUp50 x := by
  unfold roundUp50
  have h := Int.le_ceil (x / 20)
  have h20 : (0:ℝ) < 20 := by norm_num
  calc x = x / 20 * 20 := by field_simp
    _ ≤ ((⌈x / 20⌉ : ℤ) : ℝ) * 20 := mul_le_mul_of_nonneg_right h (by norm_num)

theorem roundUp50_lt_add (x : ℝ) : roundUp50 x < x + 20 := by
  unfold roundUp50
  have h := Int.ceil_lt_add_one (x / 20)
  have : ((⌈x / 20⌉ : ℤ) : ℝ) * 20 < (x / 20 + 1) * 20 :=
    mul_lt_mul_of_pos_right h (by norm_num)
  calc ((⌈x / 20⌉ : ℤ) : ℝ) * 20 < (x / 20 + 1) * 20 := this
    _ = x + 20 := by field_simp

theorem roundUp50_int (x : ℝ) : ∃ k : ℤ, roundUp50 x = (k : ℝ) * 20 :=
  ⟨⌈x / 20⌉, rfl⟩

theorem roundUp50_idem (x : ℝ) : roundUp50 (roundUp50 x) = roundUp50 x := by
  unfold roundUp50
  have : ((⌈x / 20⌉ : ℤ) : ℝ) * 20 / 20 = ((⌈x / 20⌉ : ℤ) : ℝ) := by field_simp
  rw [this, Int.ceil_intCast]

/-- Bounds for the step volume discount of the shipped configuration:
it only takes the values 0, 1/10, 3/20, 1/5, 1/4. -/
theorem volumeDiscount_CONFIG_cases (u : ℝ) :
    volumeDiscount CONFIG u = 0 ∨ volumeDiscount CONFIG u = 1/10 ∨
    volumeDiscount CONFIG u = 3/20 ∨ volumeDiscount CONFIG u = 1/5 ∨
    volumeDiscount CONFIG u = 1/4 := by
  simp only [volumeDiscount, CONFIG, volumeDiscountAux]
  split_ifs <;> tauto

theorem volumeDiscount_CONFIG_nonneg (u : ℝ) : 0 ≤ volumeDiscount CONFIG u := by
  rcases volumeDiscount_CONFIG_cases u with h | h | h | h | h <;> rw [h] <;> norm_num

theorem volumeDiscount_CONFIG_le (u : ℝ) : volumeDiscount CONFIG u ≤ 1/4 := by
  rcases volumeDiscount_CONFIG_cases u with h | h | h | h | h <;> rw [h] <;> norm_num

theorem volumeDiscount_CONFIG_mono {u1 u2 : ℝ} (h : u1 ≤ u2) :
    volumeDiscount CONFIG u1 ≤ volumeDiscount CONFIG u2 := by
  simp only [volumeDiscount, CONFIG, volumeDiscountAux]
  split_ifs <;> linarith

theorem contractDiscount_CONFIG_bounds (c : ℕ) :
    0 ≤ contractDiscount CONFIG c ∧ contractDiscount CONFIG c ≤ 7/100 := by
  simp only [contractDiscount, CONFIG, lookupDiscount]
  split_ifs <;> norm_num

/-- The loop accumulator agrees with the set-indexed sum over 2 .. n. -/
theorem sumFrom2_eq_sum_Icc (f : ℕ → ℝ) (n : ℕ) :
    sumFrom2 f n = ∑ y in Finset.Icc 2 n, f y := by
  induction n with
  | zero => simp [sumFrom2]
  | succ n ih =>
    by_cases h : 2 ≤ n + 1
    · rw [sumFrom2, ih, if_pos h, Finset.sum_Icc_succ_top h]
    · have hn : n = 0 := by omega
      subst hn
      simp [sumFrom2]

/-- A degenerate all-zero configuration (baseline two years, no tiers, no
contract discounts), used to instantiate configuration-quantified claims. -/
noncomputable def ZeroConfig : Config where
  fluxBox := 0
  replacementCycleYears := 1
  licenseYear1 := 0
  licenseYear2Plus := 0
  hourlyRate := 0
  fteSalary := 0
  buildHoursPerUnit := 0
  supportHoursPerUnitYear := 0
  coordinationHoursPerUnit := 0
  supportDecayRate := 0
  supportFloor := 0
  scaleRefUnits := 100
  scaleSlope := 0
  scaleFloor := 0
  devMaintenanceFTEs := 0
  additionalAnnualCost := 0
  year1FixedPrice := 0
  year1ShiftFactor := 0
  marginYear2Plus := 0
  overheadYear1Factor := 0
  overheadCreditYears := 0
  year2BaselineYears := 2
  year2MinGap := 0
  volumeTiers := []
  year1VolumeFactor := 0
  volumeDurationWeight := 0
  contractDiscounts := []
  existingUnits := 0

/-! ### Lemmas about the minimum-gap adjustment walk -/

/-- Any two adjacent keys of the walk (next-longer term first) end up with
adjusted values at least the gap apart, whatever the raw prices are. -/
theorem lookupAdjusted_gap (raw : ℕ → ℝ) (g : ℝ) (L1 L2 : ℕ) :
    ∀ (pre post : List ℕ) (p : Option ℝ),
      (pre ++ L2 :: L1 :: post).Nodup →
      lookupAdjusted (adjustWalk raw g (pre ++ L2 :: L1 :: post) p) L2 + g ≤
        lookupAdjusted (adjustWalk raw g (pre ++ L2 :: L1 :: post) p) L1 := by
  intro pre
  induction pre with
  | nil =>
    intro post p hnd
    have hne : L2 ≠ L1 := by
      simp only [List.nil_append, List.nodup_cons, List.mem_cons] at hnd
      exact fun h => hnd.1 (Or.inl h)
    simp only [List.nil_append, adjustWalk, lookupAdjusted, if_pos rfl,
      if_neg hne]
    cases p <;> simp only [adjustWalk, lookupAdjusted, if_pos rfl] <;>
      exact le_max_right _ _
  | cons t pre ih =>
    intro post p hnd
    have hmem : t ∉ pre ++ L2 :: L1 :: post := (List.nodup_cons.mp hnd).1
    have ht2 : t ≠ L2 := by
      intro h; exact hmem (by rw [h]; simp)
    have ht1 : t ≠ L1 := by
      intro h; exact hmem (by rw [h]; simp)
    simp only [List.cons_append, adjustWalk, lookupAdjusted, if_neg ht2,
      if_neg ht1]
    exact ih post _ (List.nodup_cons.mp hnd).2

end SRS

/-! ### Claim theorem for minimum-gap enforcement -/

/-- Claim C1: with a positive minimum gap, for adjacent configured contract
lengths L1 (shorter) and L2 (longer) the Year-2+ price of the shorter term
is at least the longer term's price plus the gap minus one rounding
increment (20), for every scenario. -/
theorem C1_year2Price_min_gap (cfg : SRS.Config) (monthlyRate : ℝ)
    (commitYears : ℕ) (fleet : ℝ) (L1 L2 : ℕ) (A B : List ℕ)
    (hgap : 0 < cfg.year2MinGap)
    (hnd : (SRS.sortedTerms cfg).Nodup)
    (hadj : SRS.sortedTerms cfg = A ++ L1 :: L2 :: B) :
    SRS.year2Price cfg monthlyRate commitYears L2 fleet + cfg.year2MinGap - 20 ≤
      SRS.year2Price cfg monthlyRate commitYears L1 fleet := by
  have hL1 : L1 ∈ SRS.sortedTerms cfg := by rw [hadj]; simp
  have hL2 : L2 ∈ SRS.sortedTerms cfg := by rw [hadj]; simp
  have hrev : (SRS.sortedTerms cfg).reverse = B.reverse ++ L2 :: L1 :: A.reverse := by
    rw [hadj]; simp
  have hndrev : (B.reverse ++ L2 :: L1 :: A.reverse).Nodup := by
    rw [← hrev]; exact List.nodup_reverse.mpr hnd
  have hgap' : ¬ cfg.year2MinGap ≤ 0 := not_le.mpr hgap
  set raw : ℕ → ℝ :=
    fun t => SRS.year2PriceRaw cfg monthlyRate commitYears t fleet with hraw
  have hkey :
      SRS.lookupAdjusted
          (SRS.adjustWalk raw cfg.year2MinGap (SRS.sortedTerms cfg).reverse none) L2 +
        cfg.year2MinGap ≤
      SRS.lookupAdjusted
          (SRS.adjustWalk raw cfg.year2MinGap (SRS.sortedTerms cfg).reverse none) L1 := by
    rw [hrev]
    exact SRS.lookupAdjusted_gap raw cfg.year2MinGap L1 L2 B.reverse A.reverse none hndrev
  simp only [SRS.year2Price, if_neg hgap', if_pos hL1, if_pos hL2]
  set a1 := SRS.lookupAdjusted
    (SRS.adjustWalk raw cfg.year2MinGap (SRS.sortedTerms cfg).reverse none) L1 with ha1
  set a2 := SRS.lookupAdjusted
    (SRS.adjustWalk raw cfg.year2MinGap (SRS.sortedTerms cfg).reverse none) L2 with ha2
  have h1 : a1 ≤ SRS.roundUp50 a1 := SRS.le_roundUp50 a1
  have h2 : SRS.roundUp50 a2 < a2 + 20 := SRS.roundUp50_lt_add a2
  linarith

/-- Witness for C1 at the shipped configuration: the adjacent pair (3,5) of
the configured terms, for a concrete scenario. -/
theorem C1_year2Price_min_gap_witness :
    SRS.year2Price SRS.CONFIG 2 1 5 0 + SRS.CONFIG.year2MinGap - 20 ≤
      SRS.year2Price SRS.CONFIG 2 1 3 0 :=
  C1_year2Price_min_gap SRS.CONFIG 2 1 0 3 5 [] [10]
    (by norm_num [SRS.CONFIG])
    (by rw [show SRS.sortedTerms SRS.CONFIG = [3, 5, 10] from rfl]; decide)
    (by rw [show SRS.sortedTerms SRS.CONFIG = [3, 5, 10] from rfl]; rfl)

/-- Claim C4: for contract lengths of at least two years, the blended
overhead equals the arithmetic mean of the per-year overhead over years
2..max(2, contractYears) minus the Year-1 surplus spread over the credit
years, floored at zero; for contract lengths of at most one year it is the
plain mean.  The credit-year count follows the claim: the credit cap when
the cap is positive (capped by contractYears-1), otherwise contractYears-1;
the hypothesis keeps the cap out of the degenerate open interval (0,1)
where the engine additionally floors the credit years at one. -/
theorem C4_overheadBlended_surplus_credit (cfg : SRS.Config)
    (monthlyRate fleet : ℝ) (commitYears contractYears : ℕ)
    (hcap : cfg.overheadCreditYears ≤ 0 ∨ 1 ≤ cfg.overheadCreditYears) :
    (contractYears ≤ 1 →
      SRS.overheadBlended cfg contractYears monthlyRate commitYears fleet =
        (∑ y in Finset.Icc 2 (max 2 contractYears),
            SRS.overheadPerUnitForYear cfg y monthlyRate commitYears fleet) /
          ((max 2 contractYears : ℕ) - 1 : ℝ)) ∧
    (2 ≤ contractYears →
      SRS.overheadBlended cfg contractYears monthlyRate commitYears fleet =
        max 0
          ((∑ y in Finset.Icc 2 (max 2 contractYears),
              SRS.overheadPerUnitForYear cfg y monthlyRate commitYears fleet) /
            ((max 2 contractYears : ℕ) - 1 : ℝ) -
          max 0
              (SRS.year1Price cfg monthlyRate commitYears contractYears fleet -
                SRS.year1Cost cfg monthlyRate commitYears fleet -
                SRS.overheadPerUnitForYear cfg 1 monthlyRate commitYears fleet *
                  cfg.overheadYear1Factor) /
            (if 0 < cfg.overheadCreditYears then
              min ((contractYears : ℝ) - 1) cfg.overheadCreditYears
            else (contractYears : ℝ) - 1))) := by
  have hbase :
      SRS.overheadBlendedBase cfg contractYears monthlyRate commitYears fleet =
        (∑ y in Finset.Icc 2 (max 2 contractYears),
            SRS.overheadPerUnitForYear cfg y monthlyRate commitYears fleet) /
          ((max 2 contractYears : ℕ) - 1 : ℝ) := by
    simp only [SRS.overheadBlendedBase, SRS.sumFrom2_eq_sum_Icc]
  constructor
  · intro h
    simp only [SRS.overheadBlended, if_pos h, hbase]
  · intro h
    have h1 : ¬ contractYears ≤ 1 := by omega
    have hc2 : (2 : ℝ) ≤ (contractYears : ℝ) := by exact_mod_cast h
    have hden : (max 1 (min ((contractYears : ℝ) - 1)
        (if 0 < cfg.overheadCreditYears then cfg.overheadCreditYears
         else (contractYears : ℝ) - 1))) =
        (if 0 < cfg.overheadCreditYears then
          min ((contractYears : ℝ) - 1) cfg.overheadCreditYears
        else (contractYears : ℝ) - 1) := by
      rcases hcap with hle | hge
      · have hnot : ¬ 0 < cfg.overheadCreditYears := not_lt.mpr hle
        rw [if_neg hnot, if_neg hnot, min_self, max_eq_right (by linarith)]
      · have hpos : 0 < cfg.overheadCreditYears := lt_of_lt_of_le one_pos hge
        rw [if_pos hpos, if_pos hpos,
          max_eq_right (le_min (by linarith) hge)]
    simp only [SRS.overheadBlended, if_neg h1, hbase, hden]

/-- Witness for C4 at the shipped configuration (credit cap 4, scenario
rate 1, one commit year, 3-year contract, no existing fleet). -/
theorem C4_overheadBlended_surplus_credit_witness :
    (3 ≤ 1 →
      SRS.overheadBlended SRS.CONFIG 3 1 1 0 =
        (∑ y in Finset.Icc 2 (max 2 3),
            SRS.overheadPerUnitForYear SRS.CONFIG y 1 1 0) /
          ((max 2 3 : ℕ) - 1 : ℝ)) ∧
    (2 ≤ 3 →
      SRS.overheadBlended SRS.CONFIG 3 1 1 0 =
        max 0
          ((∑ y in Finset.Icc 2 (max 2 3),
              SRS.overheadPerUnitForYear SRS.CONFIG y 1 1 0) /
            ((max 2 3 : ℕ) - 1 : ℝ) -
          max 0
              (SRS.year1Price SRS.CONFIG 1 1 3 0 -
                SRS.year1Cost SRS.CONFIG 1 1 0 -
                SRS.overheadPerUnitForYear SRS.CONFIG 1 1 1 0 *
                  SRS.CONFIG.overheadYear1Factor) /
            (if 0 < SRS.CONFIG.overheadCreditYears then
              min ((3 : ℝ) - 1) SRS.CONFIG.overheadCreditYears
            else (3 : ℝ) - 1))) :=
  C4_overheadBlended_surplus_credit SRS.CONFIG 1 0 1 3
    (Or.inr (by norm_num [SRS.CONFIG]))

/-! ### Claim theorems for the rounding, lookup and hyperproperty claims -/

/-- Claim C8: the rounding helper of the installed-base engine is
idempotent, always lands on a multiple of the engine's rounding increment
(20), and never rounds down. -/
theorem C8_roundUp50_properties :
    (∀ x : ℝ, SRS.roundUp50 (SRS.roundUp50 x) = SRS.roundUp50 x) ∧
    (∀ x : ℝ, ∃ k : ℤ, SRS.roundUp50 x = (k : ℝ) * 20) ∧
    (∀ x : ℝ, x ≤ SRS.roundUp50 x) :=
  ⟨SRS.roundUp50_idem, SRS.roundUp50_int, SRS.le_roundUp50⟩

/-- Claim C9: year2ListPrice is anchored to the configured baseline contract
length only; two calls differing solely in the requested contractYears
argument return the same value, for every configuration and scenario. -/
theorem C9_year2ListPrice_ignores_contractYears :
    ∀ (cfg : SRS.Config) (monthlyRate : ℝ) (commitYears : ℕ)
      (c1 c2 : ℕ) (fleet : ℝ),
      SRS.year2ListPrice cfg monthlyRate commitYears c1 fleet =
        SRS.year2ListPrice cfg monthlyRate commitYears c2 fleet :=
  fun _ _ _ _ _ _ => rfl

/-- Claim C7: contractDiscount returns exactly the configured fraction on
each configured contract length, and silently returns 0 (no error) on every
unconfigured length. -/
theorem C7_contractDiscount_lookup :
    (SRS.contractDiscount SRS.CONFIG 1 = 0 ∧
     SRS.contractDiscount SRS.CONFIG 3 = 1/50 ∧
     SRS.contractDiscount SRS.CONFIG 5 = 3/50 ∧
     SRS.contractDiscount SRS.CONFIG 10 = 7/100) ∧
    (∀ c : ℕ, c ≠ 1 → c ≠ 3 → c ≠ 5 → c ≠ 10 →
      SRS.contractDiscount SRS.CONFIG c = 0) := by
  constructor
  · refine ⟨?_, ?_, ?_, ?_⟩ <;>
      simp [SRS.contractDiscount, SRS.CONFIG, SRS.lookupDiscount]
  · intro c h1 h3 h5 h10
    simp only [SRS.contractDiscount, SRS.CONFIG, SRS.lookupDiscount]
    rw [if_neg (by omega), if_neg (by omega), if_neg (by omega), if_neg (by omega)]

/-- Claim C10: the list-price derivation clamps its denominator at 1/100,
so for every configuration and scenario - including ones where the baseline
volume-plus-contract discount reaches or exceeds 1 - the Year-2+ list price
is well-defined, non-negative whenever the margin-loaded net price is
non-negative, and at most 100 times that net price. -/
theorem C10_year2ListPrice_clamped_denominator (cfg : SRS.Config)
    (monthlyRate fleet : ℝ) (commitYears contractYears : ℕ)
    (hnet : 0 ≤ SRS.year2MinNetPrice cfg monthlyRate commitYears fleet) :
    0 ≤ SRS.year2ListPrice cfg monthlyRate commitYears contractYears fleet ∧
      SRS.year2ListPrice cfg monthlyRate commitYears contractYears fleet ≤
        100 * SRS.year2MinNetPrice cfg monthlyRate commitYears fleet := by
  set N := SRS.year2MinNetPrice cfg monthlyRate commitYears fleet with hN
  set bd := SRS.volumeDiscount cfg
      (SRS.discountBasisUnits cfg monthlyRate commitYears) +
    SRS.contractDiscount cfg (max 2 cfg.year2BaselineYears) with hbd
  have hlist : SRS.year2ListPrice cfg monthlyRate commitYears contractYears fleet =
      N / max (1/100) (1 - bd) := rfl
  have hd : (1/100 : ℝ) ≤ max (1/100) (1 - bd) := le_max_left _ _
  have hdpos : (0 : ℝ) < max (1/100) (1 - bd) := lt_of_lt_of_le (by norm_num) hd
  constructor
  · rw [hlist]
    exact div_nonneg hnet (le_of_lt hdpos)
  · rw [hlist, div_le_iff₀ hdpos]
    calc N = N * 1 := (mul_one N).symm
      _ ≤ N * (100 * max (1/100) (1 - bd)) := by
          apply mul_le_mul_of_nonneg_left _ hnet
          linarith
      _ = 100 * N * max (1/100) (1 - bd) := by ring

/-- Witness for C10 at the all-zero configuration, where the margin-loaded
net price evaluates to 0. -/
theorem C10_year2ListPrice_clamped_denominator_witness :
    0 ≤ SRS.year2ListPrice SRS.ZeroConfig 0 1 2 0 ∧
      SRS.year2ListPrice SRS.ZeroConfig 0 1 2 0 ≤
        100 * SRS.year2MinNetPrice SRS.ZeroConfig 0 1 0 :=
  C10_year2ListPrice_clamped_denominator SRS.ZeroConfig 0 0 1 2
    (by
      norm_num [SRS.year2MinNetPrice, SRS.year2CostBlended, SRS.overheadBlended,
        SRS.overheadBlendedBase, SRS.sumFrom2, SRS.year2CostForYear,
        SRS.supportHoursForYear, SRS.scaleFactor, SRS.avgInstalledBaseForYear,
        SRS.annualUnits, SRS.hardwareReserve, SRS.overheadPerUnitForYear,
        SRS.annualOverhead, SRS.year1Price, SRS.year1BasePrice,
        SRS.year1ShiftAmount, SRS.roundUp50, SRS.year1Cost, SRS.volumeDiscount,
        SRS.volumeDiscountAux, SRS.discountBasisUnits, SRS.ZeroConfig])

/-- Claim C6: for the configured volume tiers the step volume discount is
non-decreasing in the unit count and bounded between 0 and the maximum
configured tier discount (1/4). -/
theorem C6_volumeDiscount_monotone_bounded :
    (∀ u1 u2 : ℝ, u1 ≤ u2 →
      SRS.volumeDiscount SRS.CONFIG u1 ≤ SRS.volumeDiscount SRS.CONFIG u2) ∧
    (∀ u : ℝ, 0 ≤ SRS.volumeDiscount SRS.CONFIG u ∧
      SRS.volumeDiscount SRS.CONFIG u ≤ 1/4) :=
  ⟨fun _ _ h => SRS.volumeDiscount_CONFIG_mono h,
   fun u => ⟨SRS.volumeDiscount_CONFIG_nonneg u, SRS.volumeDiscount_CONFIG_le u⟩⟩

namespace TwoLayer

/-- Configuration of the simplified 2-layer engine: base prices, volume
tiers (configuration order, descending thresholds), Year-1 volume factor
and contract discounts. -/
structure Config where
  baseline5yr : ℚ
  year2 : ℚ
  volumeTiers : List (ℚ × ℚ)
  year1VolumeFactor : ℚ
  contractDiscounts : List (ℕ × ℚ)

/-- Year 1 base price derived from the 5-year baseline: baseline5yr minus
four years of the Year-2+ base price. -/
def year1Base (cfg : Config) : ℚ := cfg.baseline5yr - 4 * cfg.year2

def totalCommitment (monthlyRate commitYears : ℚ) : ℚ :=
  monthlyRate * 12 * commitYears

def volumeDiscountAux : List (ℚ × ℚ) → ℚ → ℚ
  | [], _ => 0
  | t :: ts, u => if t.1 ≤ u then t.2 else volumeDiscountAux ts u

def volumeDiscount (cfg : Config) (totalUnits : ℚ) : ℚ :=
  volumeDiscountAux cfg.volumeTiers totalUnits

def lookupDiscount : List (ℕ × ℚ) → ℕ → ℚ
  | [], _ => 0
  | p :: ps, c => if p.1 = c then p.2 else lookupDiscount ps c

def contractDiscount (cfg : Config) (contractYears : ℕ) : ℚ :=
  lookupDiscount cfg.contractDiscounts contractYears

/-- This engine revision rounds up to a 50-dollar increment. -/
def roundUp50 (x : ℚ) : ℚ := ((⌈x / 50⌉ : ℤ) : ℚ) * 50

def year1Price (cfg : Config) (monthlyRate commitYears : ℚ)
    (contractYears : ℕ) : ℚ :=
  let totalUnits := totalCommitment monthlyRate commitYears
  let volumeDisc := volumeDiscount cfg totalUnits * cfg.year1VolumeFactor
  let contractDisc := contractDiscount cfg contractYears
  roundUp50 (year1Base cfg * (1 - (volumeDisc + contractDisc)))

def year2Price (cfg : Config) (monthlyRate commitYears : ℚ)
    (contractYears : ℕ) : ℚ :=
  let totalUnits := totalCommitment monthlyRate commitYears
  let volumeDisc := volumeDiscount cfg totalUnits
  let contractDisc := contractDiscount cfg contractYears
  roundUp50 (cfg.year2 * (1 - (volumeDisc + contractDisc)))

def contractPrice (cfg : Config) (monthlyRate commitYears : ℚ)
    (contractYears : ℕ) : ℚ :=
  year1Price cfg monthlyRate commitYears contractYears +
    year2Price cfg monthlyRate commitYears contractYears *
      max 0 ((contractYears : ℚ) - 1)

/-- The configuration of the worked example: baseline 9800, Year-2+ base
1550, a 25 percent tier at 500 or more committed units, half-rate Year-1
volume discount, and a 5 percent discount on 5-year contracts. -/
def ExampleConfig : Config where
  baseline5yr := 9800
  year2 := 1550
  volumeTiers := [(500, 1/4)]
  year1VolumeFactor := 1/2
  contractDiscounts := [(5, 1/20)]

end TwoLayer

/-- Claim C3: the worked example of the 2-layer engine.  At 20 units per
month, 5 commit years and a 5-year contract: 1200 committed units, Year-1
base 3600, Year-1 price 3000 (3600 times 0.825 is 2970, rounded up to the
50 increment), Year-2+ price 1100 (1550 times 0.70 is 1085, rounded up),
contract price 3000 + 4 times 1100 = 7400. -/
theorem C3_twoLayer_worked_example :
    TwoLayer.totalCommitment 20 5 = 1200 ∧
    TwoLayer.year1Base TwoLayer.ExampleConfig = 3600 ∧
    TwoLayer.year1Price TwoLayer.ExampleConfig 20 5 5 = 3000 ∧
    TwoLayer.year2Price TwoLayer.ExampleConfig 20 5 5 = 1100 ∧
    TwoLayer.contractPrice TwoLayer.ExampleConfig 20 5 5 = 7400 := by
  have h1 : ⌈(297:ℚ)/5⌉ = 60 := by norm_num [Int.ceil_eq_iff]
  have h2 : ⌈(217:ℚ)/10⌉ = 22 := by norm_num [Int.ceil_eq_iff]
  refine ⟨by norm_num [TwoLayer.totalCommitment], by norm_num [TwoLayer.year1Base, TwoLayer.ExampleConfig], ?_, ?_, ?_⟩ <;>
    norm_num [TwoLayer.contractPrice, TwoLayer.year1Price, TwoLayer.year2Price,
      TwoLayer.totalCommitment, TwoLayer.volumeDiscount, TwoLayer.volumeDiscountAux,
      TwoLayer.contractDiscount, TwoLayer.lookupDiscount, TwoLayer.roundUp50,
      TwoLayer.year1Base, TwoLayer.ExampleConfig, h1, h2]

namespace Interp

/-- Clamp a fraction to [0,1] (non-finite inputs cannot arise for rationals). -/
def clamp01 (x : ℚ) : ℚ := max 0 (min 1 x)

theorem clamp01_nonneg (x : ℚ) : 0 ≤ clamp01 x := le_max_left _ _

theorem clamp01_le_one (x : ℚ) : clamp01 x ≤ 1 :=
  max_le (by norm_num) (min_le_left _ _)

theorem clamp01_of_bounds {x : ℚ} (h0 : 0 ≤ x) (h1 : x ≤ 1) : clamp01 x = x := by
  unfold clamp01
  rw [min_eq_right h1, max_eq_right h0]

/-- Tier cleaning: round the threshold to a non-negative integer
(JavaScript Math.round is floor of x + 1/2; Math.max 0 then Int.toNat) and
clamp the discount.  Rational inputs are always finite, so the
finiteness filter of the source keeps every entry. -/
def cleanTiers (raw : List (ℚ × ℚ)) : List (ℕ × ℚ) :=
  raw.map (fun t => ((⌊t.1 + 1/2⌋).toNat, clamp01 t.2))

/-- Append the implicit (0 units, 0 discount) point when no tier sits at 0. -/
def withZero (l : List (ℕ × ℚ)) : List (ℕ × ℚ) :=
  if l.any (fun t => t.1 = 0) then l else l ++ [(0, 0)]

def insertByKey (x : ℕ × ℚ) : List (ℕ × ℚ) → List (ℕ × ℚ)
  | [] => [x]
  | y :: ys => if x.1 ≤ y.1 then x :: y :: ys else y :: insertByKey x ys

/-- Sort ascending by minimum units. -/
def sortByKey : List (ℕ × ℚ) → List (ℕ × ℚ)
  | [] => []
  | x :: xs => insertByKey x (sortByKey xs)

/-- Merge runs of equal thresholds keeping the larger discount, walking
left to right with the most recently emitted tier as accumulator. -/
def dedupeFrom (cur : ℕ × ℚ) : List (ℕ × ℚ) → List (ℕ × ℚ)
  | [] => [cur]
  | b :: rest =>
    if cur.1 = b.1 then dedupeFrom (cur.1, max cur.2 b.2) rest
    else cur :: dedupeFrom b rest

def dedupeTiers : List (ℕ × ℚ) → List (ℕ × ℚ)
  | [] => []
  | a :: rest => dedupeFrom a rest

/-- Enforce monotonically non-decreasing discounts (prefix maximum). -/
def monotonePass (prev : ℚ) : List (ℕ × ℚ) → List (ℕ × ℚ)
  | [] => []
  | t :: ts => (t.1, max prev t.2) :: monotonePass (max prev t.2) ts

def normalizeVolumeTiers (raw : List (ℚ × ℚ)) : List (ℕ × ℚ) :=
  monotonePass 0 (dedupeTiers (sortByKey (withZero (cleanTiers raw))))

/-- The pair loop of the interpolating volume discount: check each pair of
adjacent tiers, fall through to the last tier's discount. -/
def pairScan (u : ℚ) : List (ℕ × ℚ) → ℚ
  | [] => 0
  | [t] => clamp01 t.2
  | lo :: hi :: rest =>
    if (lo.1 : ℚ) ≤ u ∧ u ≤ (hi.1 : ℚ) then
      if (hi.1 : ℚ) - (lo.1 : ℚ) ≤ 0 then clamp01 hi.2
      else clamp01 (lo.2 + (hi.2 - lo.2) * ((u - (lo.1 : ℚ)) / ((hi.1 : ℚ) - (lo.1 : ℚ))))
    else pairScan u (hi :: rest)

/-- The interpolating volume discount of the later engine revision. -/
def volumeDiscount (raw : List (ℚ × ℚ)) (totalUnits : ℚ) : ℚ :=
  let u := max 0 totalUnits
  match normalizeVolumeTiers raw with
  | [] => 0
  | t0 :: rest => if u ≤ (t0.1 : ℚ) then clamp01 t0.2 else pairScan u (t0 :: rest)

/-! #### Invariants of the normalized tier list -/

theorem mem_insertByKey {x y : ℕ × ℚ} {l : List (ℕ × ℚ)}
    (h : y ∈ insertByKey x l) : y = x ∨ y ∈ l := by
  induction l with
  | nil => simpa [insertByKey] using h
  | cons a l ih =>
    simp only [insertByKey] at h
    split_ifs at h with hc
    · simpa using h
    · rcases List.mem_cons.mp h with h | h
      · exact Or.inr (List.mem_cons.mpr (Or.inl h))
      · rcases ih h with h | h
        · exact Or.inl h
        · exact Or.inr (List.mem_cons.mpr (Or.inr h))

theorem mem_sortByKey {y : ℕ × ℚ} {l : List (ℕ × ℚ)}
    (h : y ∈ sortByKey l) : y ∈ l := by
  induction l with
  | nil => simpa [sortByKey] using h
  | cons a l ih =>
    simp only [sortByKey] at h
    rcases mem_insertByKey h with h | h
    · simp [h]
    · exact List.mem_cons.mpr (Or.inr (ih h))

theorem pairwise_insertByKey {x : ℕ × ℚ} {l : List (ℕ × ℚ)}
    (h : l.Pairwise (fun a b => a.1 ≤ b.1)) :
    (insertByKey x l).Pairwise (fun a b => a.1 ≤ b.1) := by
  induction l with
  | nil => simp [insertByKey]
  | cons a l ih =>
    simp only [insertByKey]
    rcases List.pairwise_cons.mp h with ⟨ha, hl⟩
    split_ifs with hc
    · refine List.pairwise_cons.mpr ⟨?_, h⟩
      intro b hb
      rcases List.mem_cons.mp hb with hb | hb
      · exact hb ▸ hc
      · exact le_trans hc (ha b hb)
    · refine List.pairwise_cons.mpr ⟨?_, ih hl⟩
      intro b hb
      rcases mem_insertByKey hb with hb | hb
      · exact hb ▸ le_of_not_le hc
      · exact ha b hb

theorem pairwise_sortByKey (l : List (ℕ × ℚ)) :
    (sortByKey l).Pairwise (fun a b => a.1 ≤ b.1) := by
  induction l with
  | nil => simp [sortByKey]
  | cons a l ih => exact pairwise_insertByKey ih

theorem dedupeFrom_key_mem {cur y : ℕ × ℚ} {l : List (ℕ × ℚ)}
    (h : y ∈ dedupeFrom cur l) : y.1 = cur.1 ∨ y.1 ∈ l.map Prod.fst := by
  induction l generalizing cur with
  | nil => simp_all [dedupeFrom]
  | cons b l ih =>
    simp only [dedupeFrom] at h
    split_ifs at h with hc
    · rcases ih h with h | h
      · exact Or.inl h
      · exact Or.inr (by simp [h])
    · rcases List.mem_cons.mp h with h | h
      · exact Or.inl (by rw [h])
      · rcases ih h with h | h
        · exact Or.inr (by simp [h])
        · exact Or.inr (by simp [h])

theorem dedupeFrom_pairwise {cur : ℕ × ℚ} {l : List (ℕ × ℚ)}
    (hcur : ∀ x ∈ l, cur.1 ≤ x.1)
    (hl : l.Pairwise (fun a b => a.1 ≤ b.1)) :
    (dedupeFrom cur l).Pairwise (fun a b => a.1 < b.1) := by
  induction l generalizing cur with
  | nil => simp [dedupeFrom]
  | cons b l ih =>
    rcases List.pairwise_cons.mp hl with ⟨hb, hl'⟩
    simp only [dedupeFrom]
    split_ifs with hc
    · exact ih (by intro x hx; exact hc ▸ hb x hx) hl'
    · have hlt : cur.1 < b.1 :=
        lt_of_le_of_ne (hcur b (List.mem_cons_self b l)) hc
      refine List.pairwise_cons.mpr ⟨?_, ih hb hl'⟩
      intro y hy
      rcases dedupeFrom_key_mem hy with h | h
      · rw [h]; exact hlt
      · rcases List.mem_map.mp h with ⟨z, hz, hzk⟩
        rw [← hzk]
        exact lt_of_lt_of_le hlt (hb z hz)

theorem dedupeTiers_pairwise {l : List (ℕ × ℚ)}
    (hl : l.Pairwise (fun a b => a.1 ≤ b.1)) :
    (dedupeTiers l).Pairwise (fun a b => a.1 < b.1) := by
  cases l with
  | nil => simp [dedupeTiers]
  | cons a l =>
    rcases List.pairwise_cons.mp hl with ⟨ha, hl'⟩
    exact dedupeFrom_pairwise ha hl'

theorem dedupeFrom_bounds {cur : ℕ × ℚ} {l : List (ℕ × ℚ)}
    (hcur : 0 ≤ cur.2 ∧ cur.2 ≤ 1)
    (hl : ∀ x ∈ l, 0 ≤ x.2 ∧ x.2 ≤ 1) :
    ∀ y ∈ dedupeFrom cur l, 0 ≤ y.2 ∧ y.2 ≤ 1 := by
  induction l generalizing cur with
  | nil => simpa [dedupeFrom] using hcur
  | cons b l ih =>
    intro y hy
    simp only [dedupeFrom] at hy
    have hb := hl b (List.mem_cons_self b l)
    have hl' : ∀ x ∈ l, 0 ≤ x.2 ∧ x.2 ≤ 1 :=
      fun x hx => hl x (List.mem_cons.mpr (Or.inr hx))
    split_ifs at hy with hc
    · exact ih ⟨le_max_of_le_left hcur.1, max_le hcur.2 hb.2⟩ hl' y hy
    · rcases List.mem_cons.mp hy with h | h
      · exact h ▸ hcur
      · exact ih hb hl' y h

theorem monotonePass_keys (prev : ℚ) (l : List (ℕ × ℚ)) :
    (monotonePass prev l).map Prod.fst = l.map Prod.fst := by
  induction l generalizing prev with
  | nil => simp [monotonePass]
  | cons t ts ih => simp [monotonePass, ih]

theorem monotonePass_bounds {prev : ℚ} {l : List (ℕ × ℚ)}
    (hp : 0 ≤ prev ∧ prev ≤ 1)
    (hl : ∀ x ∈ l, 0 ≤ x.2 ∧ x.2 ≤ 1) :
    ∀ y ∈ monotonePass prev l, 0 ≤ y.2 ∧ y.2 ≤ 1 := by
  induction l generalizing prev with
  | nil => simp [monotonePass]
  | cons t ts ih =>
    intro y hy
    have ht := hl t (List.mem_cons_self t ts)
    have hts : ∀ x ∈ ts, 0 ≤ x.2 ∧ x.2 ≤ 1 :=
      fun x hx => hl x (List.mem_cons.mpr (Or.inr hx))
    simp only [monotonePass] at hy
    rcases List.mem_cons.mp hy with h | h
    · rw [h]
      exact ⟨le_max_of_le_left hp.1, max_le hp.2 ht.2⟩
    · exact ih ⟨le_max_of_le_left hp.1, max_le hp.2 ht.2⟩ hts y h

theorem monotonePass_head_le (prev : ℚ) (l : List (ℕ × ℚ)) :
    ∀ y ∈ (monotonePass prev l).head?, prev ≤ y.2 := by
  cases l with
  | nil => simp [monotonePass]
  | cons t ts => simp [monotonePass]

theorem monotonePass_chain (prev : ℚ) (l : List (ℕ × ℚ)) :
    (monotonePass prev l).Chain' (fun a b => a.2 ≤ b.2) := by
  induction l generalizing prev with
  | nil => simp [monotonePass]
  | cons t ts ih =>
    simp only [monotonePass]
    exact List.chain'_cons'.mpr ⟨monotonePass_head_le _ ts, ih _⟩

theorem normalize_pairwise (raw : List (ℚ × ℚ)) :
    (normalizeVolumeTiers raw).Pairwise (fun a b => a.1 < b.1) := by
  unfold normalizeVolumeTiers
  have h1 := pairwise_sortByKey (withZero (cleanTiers raw))
  have h2 := dedupeTiers_pairwise h1
  have h3 : ((monotonePass 0 (dedupeTiers (sortByKey (withZero (cleanTiers raw))))).map
      Prod.fst).Pairwise (· < ·) := by
    rw [monotonePass_keys]
    exact h2.map Prod.fst (fun a b h => h)
  exact (List.pairwise_map.mp h3)

theorem normalize_bounds (raw : List (ℚ × ℚ)) :
    ∀ y ∈ normalizeVolumeTiers raw, 0 ≤ y.2 ∧ y.2 ≤ 1 := by
  unfold normalizeVolumeTiers
  apply monotonePass_bounds (by norm_num)
  intro x hx
  rcases hx0 : dedupeTiers (sortByKey (withZero (cleanTiers raw))) with _ | ⟨a, l⟩
  · rw [hx0] at hx; simp at hx
  · have hsrc : ∀ z ∈ sortByKey (withZero (cleanTiers raw)), 0 ≤ z.2 ∧ z.2 ≤ 1 := by
      intro z hz
      have hz' := mem_sortByKey hz
      unfold withZero at hz'
      split_ifs at hz' with hc
      · rcases List.mem_map.mp hz' with ⟨t, _, ht⟩
        rw [← ht]
        exact ⟨clamp01_nonneg _, clamp01_le_one _⟩
      · rcases List.mem_append.mp hz' with h | h
        · rcases List.mem_map.mp h with ⟨t, _, ht⟩
          rw [← ht]
          exact ⟨clamp01_nonneg _, clamp01_le_one _⟩
        · simp only [List.mem_singleton] at h
          rw [h]
          norm_num
    rw [hx0] at hx
    cases hd : sortByKey (withZero (cleanTiers raw)) with
    | nil => rw [hd] at hx0; simp [dedupeTiers] at hx0
    | cons s l' =>
      rw [hd] at hx0
      simp only [dedupeTiers] at hx0
      rw [← hx0] at hx
      refine dedupeFrom_bounds ?_ ?_ x hx
      · exact hsrc s (by rw [hd]; exact List.mem_cons_self s l')
      · intro z hz
        exact hsrc z (by rw [hd]; exact List.mem_cons.mpr (Or.inr hz))

theorem normalize_chain (raw : List (ℚ × ℚ)) :
    (normalizeVolumeTiers raw).Chain' (fun a b => a.2 ≤ b.2) :=
  monotonePass_chain 0 _

end Interp

namespace Interp

/-- The pair loop skips every pair strictly below the unit count. -/
theorem pairScan_skip (u : ℚ) (r : ℕ × ℚ) (rest : List (ℕ × ℚ))
    (hr : (r.1 : ℚ) < u) :
    ∀ A : List (ℕ × ℚ), (∀ x ∈ A, (x.1 : ℚ) < u) →
      pairScan u (A ++ r :: rest) = pairScan u (r :: rest) := by
  intro A
  induction A with
  | nil => intro _; rfl
  | cons a A ih =>
    intro hA
    have hA' : ∀ x ∈ A, (x.1 : ℚ) < u :=
      fun x hx => hA x (List.mem_cons.mpr (Or.inr hx))
    cases A with
    | nil =>
      simp only [List.nil_append, List.cons_append] at *
      rw [show pairScan u (a :: r :: rest) =
          (if (a.1 : ℚ) ≤ u ∧ u ≤ (r.1 : ℚ) then
            if (r.1 : ℚ) - (a.1 : ℚ) ≤ 0 then clamp01 r.2
            else clamp01 (a.2 + (r.2 - a.2) * ((u - (a.1 : ℚ)) / ((r.1 : ℚ) - (a.1 : ℚ))))
          else pairScan u (r :: rest)) from rfl]
      rw [if_neg]
      rintro ⟨-, h2⟩
      exact absurd h2 (not_le.mpr hr)
    | cons b A' =>
      have hb : (b.1 : ℚ) < u := hA' b (List.mem_cons_self b A')
      simp only [List.cons_append] at *
      rw [show pairScan u (a :: b :: (A' ++ r :: rest)) =
          (if (a.1 : ℚ) ≤ u ∧ u ≤ (b.1 : ℚ) then
            if (b.1 : ℚ) - (a.1 : ℚ) ≤ 0 then clamp01 b.2
            else clamp01 (a.2 + (b.2 - a.2) * ((u - (a.1 : ℚ)) / ((b.1 : ℚ) - (a.1 : ℚ))))
          else pairScan u (b :: (A' ++ r :: rest))) from rfl]
      rw [if_neg]
      · exact ih hA'
      · rintro ⟨-, h2⟩
        exact absurd h2 (not_le.mpr hb)

end Interp

/-- Claim C2: the interpolating volume discount of the later engine
revision.  After normalization (implicit zero point, ascending thresholds):
at or below the first threshold it returns the first tier's discount,
strictly between two adjacent thresholds it returns the linear
interpolation of the two bracketing discounts, and above the highest
threshold it returns the highest discount. -/
theorem C2_volumeDiscount_interpolates (raw : List (ℚ × ℚ)) (units : ℚ) :
    (∀ hd tl, Interp.normalizeVolumeTiers raw = hd :: tl →
      units ≤ (hd.1 : ℚ) →
      Interp.volumeDiscount raw units = hd.2) ∧
    (∀ A lo hi B, Interp.normalizeVolumeTiers raw = A ++ lo :: hi :: B →
      (lo.1 : ℚ) < units → units < (hi.1 : ℚ) →
      Interp.volumeDiscount raw units =
        lo.2 + (hi.2 - lo.2) * ((units - (lo.1 : ℚ)) / ((hi.1 : ℚ) - (lo.1 : ℚ)))) ∧
    (∀ A last, Interp.normalizeVolumeTiers raw = A ++ [last] →
      (last.1 : ℚ) < units →
      Interp.volumeDiscount raw units = last.2) := by
  refine ⟨?_, ?_, ?_⟩
  · -- at or below the first threshold
    intro hd tl hT hle
    have hb := Interp.normalize_bounds raw hd (by rw [hT]; exact List.mem_cons_self hd tl)
    simp only [Interp.volumeDiscount]
    rw [hT]
    simp only
    rw [if_pos (max_le (Nat.cast_nonneg hd.1) hle)]
    exact Interp.clamp01_of_bounds hb.1 hb.2
  · -- strictly between two adjacent thresholds
    intro A lo hi B hT hlo hhi
    have hpw := Interp.normalize_pairwise raw
    have hch := Interp.normalize_chain raw
    have hblo := Interp.normalize_bounds raw lo (by rw [hT]; simp)
    have hbhi := Interp.normalize_bounds raw hi (by rw [hT]; simp)
    rw [hT] at hpw hch
    have hkey : lo.1 < hi.1 := by
      have h2 := (List.pairwise_append.mp hpw).2.1
      exact (List.pairwise_cons.mp h2).1 hi (List.mem_cons_self hi B)
    have hkeyQ : (lo.1 : ℚ) < (hi.1 : ℚ) := by exact_mod_cast hkey
    have hAlt : ∀ x ∈ A, (x.1 : ℚ) < units := by
      intro x hx
      have h := (List.pairwise_append.mp hpw).2.2 x hx lo (List.mem_cons_self lo _)
      have : (x.1 : ℚ) < (lo.1 : ℚ) := by exact_mod_cast h
      linarith
    have hdisc : lo.2 ≤ hi.2 := by
      have hsfx : (lo :: hi :: B) <:+ (A ++ lo :: hi :: B) := List.suffix_append A _
      have := hch.suffix hsfx
      exact (List.chain'_cons.mp this).1
    have hupos : 0 ≤ units := le_trans (Nat.cast_nonneg lo.1) (le_of_lt hlo)
    have hu : max 0 units = units := max_eq_right hupos
    have hspan : (0 : ℚ) < (hi.1 : ℚ) - (lo.1 : ℚ) := by linarith
    have htnn : 0 ≤ (units - (lo.1 : ℚ)) / ((hi.1 : ℚ) - (lo.1 : ℚ)) :=
      div_nonneg (by linarith) (le_of_lt hspan)
    have htle : (units - (lo.1 : ℚ)) / ((hi.1 : ℚ) - (lo.1 : ℚ)) ≤ 1 :=
      le_of_lt ((div_lt_one hspan).mpr (by linarith))
    have hint0 : 0 ≤ lo.2 + (hi.2 - lo.2) * ((units - (lo.1 : ℚ)) / ((hi.1 : ℚ) - (lo.1 : ℚ))) :=
      add_nonneg hblo.1 (mul_nonneg (by linarith) htnn)
    have hint1 : lo.2 + (hi.2 - lo.2) * ((units - (lo.1 : ℚ)) / ((hi.1 : ℚ) - (lo.1 : ℚ))) ≤ 1 := by
      have : (hi.2 - lo.2) * ((units - (lo.1 : ℚ)) / ((hi.1 : ℚ) - (lo.1 : ℚ))) ≤
          (hi.2 - lo.2) * 1 :=
        mul_le_mul_of_nonneg_left htle (by linarith)
      have h2 : lo.2 + (hi.2 - lo.2) * ((units - (lo.1 : ℚ)) / ((hi.1 : ℚ) - (lo.1 : ℚ))) ≤ hi.2 := by
        linarith
      linarith [hbhi.2]
    have hscan : Interp.pairScan units (lo :: hi :: B) =
        lo.2 + (hi.2 - lo.2) * ((units - (lo.1 : ℚ)) / ((hi.1 : ℚ) - (lo.1 : ℚ))) := by
      rw [show Interp.pairScan units (lo :: hi :: B) =
          (if (lo.1 : ℚ) ≤ units ∧ units ≤ (hi.1 : ℚ) then
            if (hi.1 : ℚ) - (lo.1 : ℚ) ≤ 0 then Interp.clamp01 hi.2
            else Interp.clamp01 (lo.2 + (hi.2 - lo.2) *
              ((units - (lo.1 : ℚ)) / ((hi.1 : ℚ) - (lo.1 : ℚ))))
          else Interp.pairScan units (hi :: B)) from rfl]
      rw [if_pos ⟨le_of_lt hlo, le_of_lt hhi⟩, if_neg (not_le.mpr hspan)]
      exact Interp.clamp01_of_bounds hint0 hint1
    simp only [Interp.volumeDiscount]
    rw [hT]
    cases A with
    | nil =>
      simp only [List.nil_append]
      rw [if_neg (by rw [hu]; exact not_le.mpr hlo), hu, hscan]
    | cons a A' =>
      simp only [List.cons_append]
      have ha : (a.1 : ℚ) < units := hAlt a (List.mem_cons_self a A')
      rw [if_neg (by rw [hu]; exact not_le.mpr ha), hu]
      rw [show a :: (A' ++ lo :: hi :: B) = (a :: A') ++ lo :: hi :: B from rfl]
      rw [Interp.pairScan_skip units lo (hi :: B) hlo (a :: A') hAlt, hscan]
  · -- above the highest threshold
    intro A last hT hlast
    have hpw := Interp.normalize_pairwise raw
    have hbl := Interp.normalize_bounds raw last (by rw [hT]; simp)
    rw [hT] at hpw
    have hAlt : ∀ x ∈ A, (x.1 : ℚ) < units := by
      intro x hx
      have h := (List.pairwise_append.mp hpw).2.2 x hx last (List.mem_cons_self last [])
      have : (x.1 : ℚ) < (last.1 : ℚ) := by exact_mod_cast h
      linarith
    have hupos : 0 ≤ units := le_trans (Nat.cast_nonneg last.1) (le_of_lt hlast)
    have hu : max 0 units = units := max_eq_right hupos
    have hbase : Interp.pairScan units [last] = last.2 := by
      rw [show Interp.pairScan units [last] = Interp.clamp01 last.2 from rfl]
      exact Interp.clamp01_of_bounds hbl.1 hbl.2
    simp only [Interp.volumeDiscount]
    rw [hT]
    cases A with
    | nil =>
      simp only [List.nil_append]
      rw [if_neg (by rw [hu]; exact not_le.mpr hlast), hu, hbase]
    | cons a A' =>
      simp only [List.cons_append]
      have ha : (a.1 : ℚ) < units := hAlt a (List.mem_cons_self a A')
      rw [if_neg (by rw [hu]; exact not_le.mpr ha), hu]
      rw [show a :: (A' ++ [last]) = (a :: A') ++ [last] from rfl]
      rw [Interp.pairScan_skip units last [] hlast (a :: A') hAlt, hbase]

namespace SRS

/-! ### Field values of the shipped configuration -/

theorem CONFIG_fluxBox : CONFIG.fluxBox = 950 := rfl

theorem CONFIG_replacementCycleYears : CONFIG.replacementCycleYears = 5 := rfl

theorem CONFIG_licenseYear1 : CONFIG.licenseYear1 = 1900 := rfl

theorem CONFIG_licenseYear2Plus : CONFIG.licenseYear2Plus = 290 := rfl

theorem CONFIG_hourlyRate : CONFIG.hourlyRate = 75 := rfl

theorem CONFIG_fteSalary : CONFIG.fteSalary = 60000 := rfl

theorem CONFIG_buildHoursPerUnit : CONFIG.buildHoursPerUnit = 4 := rfl

theorem CONFIG_supportHoursPerUnitYear : CONFIG.supportHoursPerUnitYear = 8 := rfl

theorem CONFIG_coordinationHoursPerUnit : CONFIG.coordinationHoursPerUnit = 4 := rfl

theorem CONFIG_supportDecayRate : CONFIG.supportDecayRate = 9/10 := rfl

theorem CONFIG_supportFloor : CONFIG.supportFloor = 5/8 := rfl

theorem CONFIG_scaleRefUnits : CONFIG.scaleRefUnits = 100 := rfl

theorem CONFIG_scaleSlope : CONFIG.scaleSlope = 7/20 := rfl

theorem CONFIG_scaleFloor : CONFIG.scaleFloor = 3/5 := rfl

theorem CONFIG_devMaintenanceFTEs : CONFIG.devMaintenanceFTEs = 1 := rfl

theorem CONFIG_additionalAnnualCost : CONFIG.additionalAnnualCost = 0 := rfl

theorem CONFIG_year1FixedPrice : CONFIG.year1FixedPrice = 2400 := rfl

theorem CONFIG_year1ShiftFactor : CONFIG.year1ShiftFactor = 0 := rfl

theorem CONFIG_marginYear2Plus : CONFIG.marginYear2Plus = 1/5 := rfl

theorem CONFIG_overheadYear1Factor : CONFIG.overheadYear1Factor = 0 := rfl

theorem CONFIG_overheadCreditYears : CONFIG.overheadCreditYears = 4 := rfl

theorem CONFIG_year2BaselineYears : CONFIG.year2BaselineYears = 10 := rfl

theorem CONFIG_year2MinGap : CONFIG.year2MinGap = 20 := rfl

theorem CONFIG_year1VolumeFactor : CONFIG.year1VolumeFactor = 1/2 := rfl

theorem CONFIG_volumeDurationWeight : CONFIG.volumeDurationWeight = 1/4 := rfl

theorem CONFIG_existingUnits : CONFIG.existingUnits = 0 := rfl

/-! ### Monotonicity in the commitment duration -/

theorem discountBasisUnits_mono {rate : ℝ} (hr : 0 ≤ rate) {cy cy' : ℕ}
    (h : cy ≤ cy') :
    discountBasisUnits CONFIG rate cy ≤ discountBasisUnits CONFIG rate cy' := by
  have hcast : (cy : ℝ) ≤ (cy' : ℝ) := by exact_mod_cast h
  simp only [discountBasisUnits, annualUnits, CONFIG_volumeDurationWeight]
  have hw : max 0 (min 1 (1/4 : ℝ)) = 1/4 := by norm_num [max_def, min_def]
  rw [hw]
  have key : rate * 12 * (cy : ℝ) ≤ rate * 12 * (cy' : ℝ) :=
    mul_le_mul_of_nonneg_left hcast (by linarith)
  linarith

theorem year1BasePrice_anti {rate : ℝ} (hr : 0 ≤ rate) {cy cy' : ℕ}
    (h : cy ≤ cy') :
    year1BasePrice CONFIG rate cy' ≤ year1BasePrice CONFIG rate cy := by
  have hvd := volumeDiscount_CONFIG_mono (discountBasisUnits_mono hr h)
  simp only [year1BasePrice, CONFIG_year1FixedPrice, CONFIG_year1VolumeFactor]
  exact roundUp50_mono (by linarith)

theorem year1ShiftAmount_zero (rate : ℝ) (cy : ℕ) :
    year1ShiftAmount CONFIG rate cy = 0 := by
  simp only [year1ShiftAmount, CONFIG_year1ShiftFactor]
  norm_num [max_def, min_def]

theorem year1ShiftPerYear_zero (rate : ℝ) (cy c : ℕ) :
    year1ShiftPerYear CONFIG rate cy c = 0 := by
  simp only [year1ShiftPerYear, year1ShiftAmount_zero]
  split_ifs <;> simp

theorem year1Price_anti {rate : ℝ} (hr : 0 ≤ rate) {cy cy' : ℕ}
    (h : cy ≤ cy') (c : ℕ) (fleet : ℝ) :
    year1Price CONFIG rate cy' c fleet ≤ year1Price CONFIG rate cy c fleet := by
  simp only [year1Price, year1ShiftAmount_zero, sub_zero]
  apply roundUp50_mono
  have hm : max 0 (year1BasePrice CONFIG rate cy') ≤
      max 0 (year1BasePrice CONFIG rate cy) :=
    max_le_max le_rfl (year1BasePrice_anti hr h)
  linarith

theorem avgBase_mono {rate fleet : ℝ} (hr : 0 < rate) (y : ℕ) {cy cy' : ℕ}
    (h : cy ≤ cy') :
    avgInstalledBaseForYear CONFIG y rate cy fleet ≤
      avgInstalledBaseForYear CONFIG y rate cy' fleet := by
  simp only [avgInstalledBaseForYear, annualUnits]
  apply max_le_max le_rfl
  by_cases h1 : y ≤ cy
  · have h2 : y ≤ cy' := le_trans h1 h
    rw [Nat.min_eq_left h1, Nat.min_eq_left h2, if_pos h1, if_pos h2]
  · by_cases h2 : y ≤ cy'
    · rw [Nat.min_eq_right (le_of_not_le h1), Nat.min_eq_left h2, if_neg h1,
        if_pos h2]
      have hcy1 : cy + 1 ≤ y := by omega
      have hc : (cy : ℝ) + 1 ≤ (y : ℝ) := by exact_mod_cast hcy1
      have key : rate * 12 * (cy : ℝ) ≤ rate * 12 * ((y : ℝ) - 1) :=
        mul_le_mul_of_nonneg_left (by linarith) (by linarith)
      have hexp : rate * 12 * ((y : ℝ) - 1) = rate * 12 * (y : ℝ) - rate * 12 := by
        ring
      rw [hexp] at key
      linarith
    · rw [Nat.min_eq_right (le_of_not_le h1), Nat.min_eq_right (le_of_not_le h2),
        if_neg h1, if_neg h2]
      have hc : (cy : ℝ) ≤ (cy' : ℝ) := by exact_mod_cast h
      have key : rate * 12 * (cy : ℝ) ≤ rate * 12 * (cy' : ℝ) :=
        mul_le_mul_of_nonneg_left hc (by linarith)
      linarith

theorem avgBase_pos {rate fleet : ℝ} (hr : 0 < rate) (hf : 0 ≤ fleet)
    {y cy : ℕ} (hy : 1 ≤ y) (hcy : 1 ≤ cy) :
    0 < avgInstalledBaseForYear CONFIG y rate cy fleet := by
  simp only [avgInstalledBaseForYear, annualUnits]
  apply lt_max_of_lt_right
  by_cases h1 : y ≤ cy
  · rw [if_pos h1]
    have hmin : 1 ≤ min y cy := le_min hy hcy
    have hm : (1 : ℝ) ≤ ((min y cy : ℕ) : ℝ) := by exact_mod_cast hmin
    have key : rate * 12 * 1 ≤ rate * 12 * ((min y cy : ℕ) : ℝ) :=
      mul_le_mul_of_nonneg_left hm (by linarith)
    linarith
  · rw [if_neg h1, Nat.min_eq_right (le_of_not_le h1)]
    have hm : (1 : ℝ) ≤ (cy : ℝ) := by exact_mod_cast hcy
    have key : rate * 12 * 1 ≤ rate * 12 * (cy : ℝ) :=
      mul_le_mul_of_nonneg_left hm (by linarith)
    linarith

theorem scaleFactor_le_one (b : ℝ) : scaleFactor CONFIG b ≤ 1 := by
  simp only [scaleFactor, CONFIG_scaleFloor]
  split_ifs with h
  · exact le_refl 1
  · exact max_le (by norm_num) (min_le_left _ _)

theorem scaleFactor_anti {b b' : ℝ} (hb : 0 < b) (h : b ≤ b') :
    scaleFactor CONFIG b' ≤ scaleFactor CONFIG b := by
  have href : CONFIG.scaleRefUnits = 100 := rfl
  by_cases hb2 : b' ≤ 100
  · have e1 : scaleFactor CONFIG b = 1 := by
      simp only [scaleFactor, href]
      rw [if_pos (Or.inr (le_trans h hb2))]
    have e2 : scaleFactor CONFIG b' = 1 := by
      simp only [scaleFactor, href]
      rw [if_pos (Or.inr hb2)]
    rw [e1, e2]
  · push_neg at hb2
    by_cases hble : b ≤ 100
    · have e1 : scaleFactor CONFIG b = 1 := by
        simp only [scaleFactor, href]
        rw [if_pos (Or.inr hble)]
      rw [e1]
      exact scaleFactor_le_one b'
    · push_neg at hble
      have hc1 : ¬ (b ≤ 0 ∨ b ≤ CONFIG.scaleRefUnits) := by
        rw [href]; push_neg; exact ⟨by linarith, by linarith⟩
      have hc2 : ¬ (b' ≤ 0 ∨ b' ≤ CONFIG.scaleRefUnits) := by
        rw [href]; push_neg; exact ⟨by linarith, by linarith⟩
      simp only [scaleFactor, href, CONFIG_scaleSlope, CONFIG_scaleFloor] at hc1 hc2 ⊢
      rw [if_neg hc1, if_neg hc2]
      apply max_le_max le_rfl
      apply min_le_min le_rfl
      have hl0 : 0 ≤ Real.logb 10 (b / 100) :=
        Real.logb_nonneg (by norm_num) ((le_div_iff₀ (by norm_num)).mpr (by linarith))
      have hll : Real.logb 10 (b / 100) ≤ Real.logb 10 (b' / 100) :=
        Real.logb_le_logb_of_le (by norm_num) (by positivity)
          ((div_le_div_right (by norm_num)).mpr h)
      have hpos : (0 : ℝ) < 1 + 7/20 * Real.logb 10 (b / 100) := by linarith
      exact one_div_le_one_div_of_le hpos (by linarith)

theorem supportHours_anti {rate fleet : ℝ} (hr : 0 < rate) (hf : 0 ≤ fleet)
    {y : ℕ} (hy : 1 ≤ y) {cy cy' : ℕ} (hcy : 1 ≤ cy) (h : cy ≤ cy') :
    supportHoursForYear CONFIG y rate cy' fleet ≤
      supportHoursForYear CONFIG y rate cy fleet := by
  simp only [supportHoursForYear, CONFIG_supportHoursPerUnitYear,
    CONFIG_supportFloor, CONFIG_supportDecayRate]
  apply mul_le_mul_of_nonneg_left
  · exact scaleFactor_anti (avgBase_pos hr hf hy hcy) (avgBase_mono hr y h)
  · apply mul_nonneg (by norm_num)
    exact le_trans (by norm_num) (le_max_left _ _)

theorem year2CostForYear_anti {rate fleet : ℝ} (hr : 0 < rate) (hf : 0 ≤ fleet)
    {y : ℕ} (hy : 1 ≤ y) {cy cy' : ℕ} (hcy : 1 ≤ cy) (h : cy ≤ cy') :
    year2CostForYear CONFIG y rate cy' fleet ≤
      year2CostForYear CONFIG y rate cy fleet := by
  simp only [year2CostForYear, CONFIG_hourlyRate]
  apply add_le_add_right
  exact mul_le_mul_of_nonneg_right (supportHours_anti hr hf hy hcy h) (by norm_num)

theorem sumFrom2_mono {f f' : ℕ → ℝ} (h : ∀ y, 2 ≤ y → f' y ≤ f y) (n : ℕ) :
    sumFrom2 f' n ≤ sumFrom2 f n := by
  induction n with
  | zero => exact le_refl 0
  | succ n ih =>
    simp only [sumFrom2]
    split_ifs with hc
    · exact add_le_add ih (h _ hc)
    · exact add_le_add ih le_rfl

theorem blend_den_nonneg (c : ℕ) : (0 : ℝ) ≤ ((max 2 c : ℕ) : ℝ) - 1 := by
  have h2 : (2 : ℕ) ≤ max 2 c := le_max_left 2 c
  have : (2 : ℝ) ≤ ((max 2 c : ℕ) : ℝ) := by exact_mod_cast h2
  linarith

theorem year2CostBlended_anti {rate fleet : ℝ} (hr : 0 < rate) (hf : 0 ≤ fleet)
    (c : ℕ) {cy cy' : ℕ} (hcy : 1 ≤ cy) (h : cy ≤ cy') :
    year2CostBlended CONFIG c rate cy' fleet ≤
      year2CostBlended CONFIG c rate cy fleet := by
  simp only [year2CostBlended]
  apply div_le_div_of_le_of_nonneg _ (blend_den_nonneg c)
  exact sumFrom2_mono
    (fun y hy => year2CostForYear_anti hr hf (by omega) hcy h) _

theorem overheadPerUnit_anti {rate fleet : ℝ} (hr : 0 < rate) (hf : 0 ≤ fleet)
    {y : ℕ} (hy : 1 ≤ y) {cy cy' : ℕ} (hcy : 1 ≤ cy) (h : cy ≤ cy') :
    overheadPerUnitForYear CONFIG y rate cy' fleet ≤
      overheadPerUnitForYear CONFIG y rate cy fleet := by
  have hp := avgBase_pos hr hf hy hcy
  have hp' := avgBase_pos hr hf hy (le_trans hcy h)
  have hm := @avgBase_mono rate fleet hr y cy cy' h
  simp only [overheadPerUnitForYear]
  rw [if_neg (not_le.mpr hp), if_neg (not_le.mpr hp')]
  apply div_le_div_of_nonneg_left _ hp hm
  norm_num [annualOverhead, CONFIG_devMaintenanceFTEs, CONFIG_fteSalary,
    CONFIG_additionalAnnualCost]

theorem overheadBlendedBase_anti {rate fleet : ℝ} (hr : 0 < rate)
    (hf : 0 ≤ fleet) (c : ℕ) {cy cy' : ℕ} (hcy : 1 ≤ cy) (h : cy ≤ cy') :
    overheadBlendedBase CONFIG c rate cy' fleet ≤
      overheadBlendedBase CONFIG c rate cy fleet := by
  simp only [overheadBlendedBase]
  apply div_le_div_of_le_of_nonneg _ (blend_den_nonneg c)
  exact sumFrom2_mono
    (fun y hy => overheadPerUnit_anti hr hf (by omega) hcy h) _

theorem year1Cost_const {rate fleet : ℝ} {cy cy' : ℕ} (hcy : 1 ≤ cy)
    (hcy' : 1 ≤ cy') :
    year1Cost CONFIG rate cy' fleet = year1Cost CONFIG rate cy fleet := by
  have havg : avgInstalledBaseForYear CONFIG 1 rate cy' fleet =
      avgInstalledBaseForYear CONFIG 1 rate cy fleet := by
    simp only [avgInstalledBaseForYear]
    rw [Nat.min_eq_left hcy, Nat.min_eq_left hcy', if_pos hcy, if_pos hcy']
  simp only [year1Cost, supportHoursForYear, havg]

theorem overheadBlended_anti {rate fleet : ℝ} (hr : 0 < rate) (hf : 0 ≤ fleet)
    (c : ℕ) {cy cy' : ℕ} (hcy : 1 ≤ cy) (h : cy ≤ cy')
    (hvd : volumeDiscount CONFIG (discountBasisUnits CONFIG rate cy') =
      volumeDiscount CONFIG (discountBasisUnits CONFIG rate cy)) :
    overheadBlended CONFIG c rate cy' fleet ≤
      overheadBlended CONFIG c rate cy fleet := by
  have hbase := overheadBlendedBase_anti hr hf c hcy h
  have hy1p : year1Price CONFIG rate cy' c fleet =
      year1Price CONFIG rate cy c fleet := by
    simp only [year1Price, year1BasePrice, year1ShiftAmount_zero, hvd, sub_zero]
  have hy1c := @year1Cost_const rate fleet cy cy' hcy (le_trans hcy h)
  simp only [overheadBlended, CONFIG_overheadYear1Factor, mul_zero, sub_zero]
  split_ifs with h1
  · exact hbase
  all_goals
    rw [hy1p, hy1c]
    exact max_le_max le_rfl (sub_le_sub_right hbase _)

theorem year2ListPrice_anti {rate fleet : ℝ} (hr : 0 < rate) (hf : 0 ≤ fleet)
    {cy cy' : ℕ} (hcy : 1 ≤ cy) (h : cy ≤ cy')
    (hvd : volumeDiscount CONFIG (discountBasisUnits CONFIG rate cy') =
      volumeDiscount CONFIG (discountBasisUnits CONFIG rate cy))
    (c : ℕ) :
    year2ListPrice CONFIG rate cy' c fleet ≤
      year2ListPrice CONFIG rate cy c fleet := by
  have hcost := year2CostBlended_anti hr hf (max 2 CONFIG.year2BaselineYears)
    hcy h
  have hovh := overheadBlended_anti hr hf (max 2 CONFIG.year2BaselineYears)
    hcy h hvd
  simp only [year2ListPrice, year2MinNetPrice, CONFIG_marginYear2Plus, hvd]
  have hd : (0 : ℝ) < max (1/100)
      (1 - (volumeDiscount CONFIG (discountBasisUnits CONFIG rate cy) +
        contractDiscount CONFIG (max 2 CONFIG.year2BaselineYears))) :=
    lt_of_lt_of_le (by norm_num) (le_max_left _ _)
  apply div_le_div_of_le_of_nonneg _ (le_of_lt hd)
  exact mul_le_mul_of_nonneg_right (add_le_add hcost hovh) (by norm_num)

theorem year2PriceRaw_anti {rate fleet : ℝ} (hr : 0 < rate) (hf : 0 ≤ fleet)
    {cy cy' : ℕ} (hcy : 1 ≤ cy) (h : cy ≤ cy')
    (hvd : volumeDiscount CONFIG (discountBasisUnits CONFIG rate cy') =
      volumeDiscount CONFIG (discountBasisUnits CONFIG rate cy))
    (t : ℕ) :
    year2PriceRaw CONFIG rate cy' t fleet ≤
      year2PriceRaw CONFIG rate cy t fleet := by
  simp only [year2PriceRaw, year1ShiftPerYear_zero, add_zero, hvd]
  apply add_le_add_right
  apply roundUp50_mono
  apply mul_le_mul_of_nonneg_right (year2ListPrice_anti hr hf hcy h hvd t)
  have h1 := volumeDiscount_CONFIG_le (discountBasisUnits CONFIG rate cy)
  have h2 := (contractDiscount_CONFIG_bounds t).2
  linarith

/-- Pointwise ordering on the optional carry of the adjustment walk. -/
inductive OptLE : Option ℝ → Option ℝ → Prop
  | none : OptLE none none
  | some {a b : ℝ} : a ≤ b → OptLE (some a) (some b)

theorem adjustWalk_lookup_anti {raw raw' : ℕ → ℝ} {g : ℝ}
    (h : ∀ t, raw' t ≤ raw t) :
    ∀ (l : List ℕ) {p p' : Option ℝ}, OptLE p' p → ∀ k,
      lookupAdjusted (adjustWalk raw' g l p') k ≤
        lookupAdjusted (adjustWalk raw g l p) k := by
  intro l
  induction l with
  | nil =>
    intro p p' _ k
    simp [adjustWalk, lookupAdjusted]
  | cons t ts ih =>
    intro p p' hp k
    cases hp with
    | none =>
      simp only [adjustWalk, lookupAdjusted]
      split_ifs with hk
      · exact h t
      · exact ih (OptLE.some (h t)) k
    | some hq =>
      simp only [adjustWalk, lookupAdjusted]
      split_ifs with hk
      · exact max_le_max (h t) (add_le_add_right hq g)
      · exact ih (OptLE.some (max_le_max (h t) (add_le_add_right hq g))) k

theorem year2Price_anti {rate fleet : ℝ} (hr : 0 < rate) (hf : 0 ≤ fleet)
    {cy cy' : ℕ} (hcy : 1 ≤ cy) (h : cy ≤ cy')
    (hvd : volumeDiscount CONFIG (discountBasisUnits CONFIG rate cy') =
      volumeDiscount CONFIG (discountBasisUnits CONFIG rate cy))
    (c : ℕ) :
    year2Price CONFIG rate cy' c fleet ≤ year2Price CONFIG rate cy c fleet := by
  have hgap : ¬ CONFIG.year2MinGap ≤ 0 := by norm_num [CONFIG_year2MinGap]
  have hraw : ∀ t, year2PriceRaw CONFIG rate cy' t fleet ≤
      year2PriceRaw CONFIG rate cy t fleet :=
    fun t => year2PriceRaw_anti hr hf hcy h hvd t
  simp only [year2Price, if_neg hgap]
  split_ifs with hmem
  · exact roundUp50_mono (adjustWalk_lookup_anti hraw _ OptLE.none c)
  · exact roundUp50_mono (hraw c)

end SRS

/-- Claim C5 (amended): for a fixed positive rate, contract length and
fleet, increasing the commitment duration never increases the Year-1 price;
and it never increases the Year-2+ price provided the volume discount at
the blended discount basis is the same at both durations.  (As stated, with
a one-increment tolerance but no tier-crossing proviso, the claim is false:
crossing a volume-tier boundary shrinks the Year-1 overhead-surplus credit
and can push the Year-2+ price up by three rounding increments.) -/
theorem C5_commitYears_monotone (rate fleet : ℝ) (c cy cy' : ℕ)
    (hr : 0 < rate) (hf : 0 ≤ fleet) (h1 : 1 ≤ cy) (hcy : cy ≤ cy') :
    SRS.year1Price SRS.CONFIG rate cy' c fleet ≤
      SRS.year1Price SRS.CONFIG rate cy c fleet ∧
    (SRS.volumeDiscount SRS.CONFIG (SRS.discountBasisUnits SRS.CONFIG rate cy') =
        SRS.volumeDiscount SRS.CONFIG (SRS.discountBasisUnits SRS.CONFIG rate cy) →
      SRS.year2Price SRS.CONFIG rate cy' c fleet ≤
        SRS.year2Price SRS.CONFIG rate cy c fleet) :=
  ⟨SRS.year1Price_anti (le_of_lt hr) hcy c fleet,
   fun hvd => SRS.year2Price_anti hr hf h1 hcy hvd c⟩

/-- Witness for the amended C5 at rate 1, fleet 0, 3-year contract,
commitment one year versus two years. -/
theorem C5_commitYears_monotone_witness :
    SRS.year1Price SRS.CONFIG 1 2 3 0 ≤ SRS.year1Price SRS.CONFIG 1 1 3 0 ∧
    (SRS.volumeDiscount SRS.CONFIG (SRS.discountBasisUnits SRS.CONFIG 1 2) =
        SRS.volumeDiscount SRS.CONFIG (SRS.discountBasisUnits SRS.CONFIG 1 1) →
      SRS.year2Price SRS.CONFIG 1 2 3 0 ≤ SRS.year2Price SRS.CONFIG 1 1 3 0) :=
  C5_commitYears_monotone 1 0 3 1 2 (by norm_num) (by norm_num) (by norm_num)
    (by norm_num)

namespace SRS

theorem CONFIG_volumeTiers :
    CONFIG.volumeTiers = [(500, 1/4), (360, 1/5), (240, 3/20), (120, 1/10)] := rfl

theorem CONFIG_contractDiscounts :
    CONFIG.contractDiscounts = [(1, 0), (3, 1/50), (5, 3/50), (10, 7/100)] := rfl

theorem roundUp50_eq {x y : ℝ} (n : ℤ) (hceil : ⌈x/20⌉ = n)
    (hy : (n : ℝ) * 20 = y) : roundUp50 x = y := by
  unfold roundUp50
  rw [hceil, hy]

/-! ### Exact evaluation of the counterexample scenario: rate one half,
no existing fleet, commitment 76 versus 77 years (the blended discount
basis crosses the 120-unit volume tier between the two).  The installed
base stays at or below 57 units, so the scale factor never leaves its
unit branch and every quantity is rational. -/

theorem eval_scaleFactor_le {b : ℝ} (hb : b ≤ 100) : scaleFactor CONFIG b = 1 := by
  simp only [scaleFactor, CONFIG_scaleRefUnits]
  rw [if_pos (Or.inr hb)]

theorem eval_avgBase {y cyv : ℕ} (hy : 1 ≤ y) (hyc : y ≤ cyv) :
    avgInstalledBaseForYear CONFIG y (1/2) cyv 0 = 6 * (y : ℝ) - 3 := by
  have hyR : (1 : ℝ) ≤ (y : ℝ) := by exact_mod_cast hy
  simp only [avgInstalledBaseForYear, annualUnits]
  rw [Nat.min_eq_left hyc, if_pos hyc, max_eq_right (by linarith)]
  ring

theorem eval_supportHours {y cyv : ℕ} (hy : 1 ≤ y) (h10 : y ≤ 10)
    (hyc : y ≤ cyv) :
    supportHoursForYear CONFIG y (1/2) cyv 0 =
      8 * max (5/8) ((9/10 : ℝ) ^ (y - 1)) := by
  have h10R : (y : ℝ) ≤ 10 := by exact_mod_cast h10
  simp only [supportHoursForYear, CONFIG_supportHoursPerUnitYear,
    CONFIG_supportFloor, CONFIG_supportDecayRate]
  rw [eval_avgBase hy hyc, eval_scaleFactor_le (by linarith), mul_one]

theorem eval_year2CostForYear {y cyv : ℕ} (hy : 1 ≤ y) (h10 : y ≤ 10)
    (hyc : y ≤ cyv) :
    year2CostForYear CONFIG y (1/2) cyv 0 =
      8 * max (5/8) ((9/10 : ℝ) ^ (y - 1)) * 75 + 190 := by
  simp only [year2CostForYear, CONFIG_hourlyRate, hardwareReserve,
    CONFIG_fluxBox, CONFIG_replacementCycleYears]
  rw [eval_supportHours hy h10 hyc]
  norm_num

theorem eval_costBlended {cyv : ℕ} (hcyv : 10 ≤ cyv) :
    year2CostBlended CONFIG 10 (1/2) cyv 0 = 90701/150 := by
  have e : ∀ y : ℕ, 1 ≤ y → y ≤ 10 →
      year2CostForYear CONFIG y (1/2) cyv 0 =
        8 * max (5/8) ((9/10 : ℝ) ^ (y - 1)) * 75 + 190 :=
    fun y h1 h2 => eval_year2CostForYear h1 h2 (le_trans h2 hcyv)
  simp only [year2CostBlended]
  rw [show (max 2 10 : ℕ) = 10 from rfl]
  norm_num [sumFrom2]
  rw [e 2 (by norm_num) (by norm_num), e 3 (by norm_num) (by norm_num),
    e 4 (by norm_num) (by norm_num), e 5 (by norm_num) (by norm_num),
    e 6 (by norm_num) (by norm_num), e 7 (by norm_num) (by norm_num),
    e 8 (by norm_num) (by norm_num), e 9 (by norm_num) (by norm_num),
    e 10 (by norm_num) (by norm_num)]
  norm_num [max_def]

theorem eval_opus {y cyv : ℕ} (hy : 1 ≤ y) (hyc : y ≤ cyv) :
    overheadPerUnitForYear CONFIG y (1/2) cyv 0 = 60000 / (6 * (y : ℝ) - 3) := by
  have hyR : (1 : ℝ) ≤ (y : ℝ) := by exact_mod_cast hy
  simp only [overheadPerUnitForYear]
  rw [eval_avgBase hy hyc, if_neg (not_le.mpr (by linarith))]
  norm_num [annualOverhead, CONFIG_devMaintenanceFTEs, CONFIG_fteSalary,
    CONFIG_additionalAnnualCost]

theorem eval_obb {cyv : ℕ} (hcyv : 10 ≤ cyv) :
    overheadBlendedBase CONFIG 10 (1/2) cyv 0 = 65953364000/26189163 := by
  have e : ∀ y : ℕ, 1 ≤ y → y ≤ 10 →
      overheadPerUnitForYear CONFIG y (1/2) cyv 0 = 60000 / (6 * (y : ℝ) - 3) :=
    fun y h1 h2 => eval_opus h1 (le_trans h2 hcyv)
  simp only [overheadBlendedBase]
  rw [show (max 2 10 : ℕ) = 10 from rfl]
  norm_num [sumFrom2]
  rw [e 2 (by norm_num) (by norm_num), e 3 (by norm_num) (by norm_num),
    e 4 (by norm_num) (by norm_num), e 5 (by norm_num) (by norm_num),
    e 6 (by norm_num) (by norm_num), e 7 (by norm_num) (by norm_num),
    e 8 (by norm_num) (by norm_num), e 9 (by norm_num) (by norm_num),
    e 10 (by norm_num) (by norm_num)]
  norm_num

theorem eval_y1cost {cyv : ℕ} (hcyv : 1 ≤ cyv) :
    year1Cost CONFIG (1/2) cyv 0 = 2150 := by
  simp only [year1Cost, CONFIG_fluxBox, CONFIG_buildHoursPerUnit,
    CONFIG_hourlyRate, CONFIG_coordinationHoursPerUnit]
  rw [eval_supportHours (le_refl 1) (by norm_num) hcyv]
  norm_num [max_def]

theorem eval_dbu76 : discountBasisUnits CONFIG (1/2) 76 = 237/2 := by
  simp only [discountBasisUnits, annualUnits, CONFIG_volumeDurationWeight]
  norm_num [max_def, min_def]

theorem eval_dbu77 : discountBasisUnits CONFIG (1/2) 77 = 120 := by
  simp only [discountBasisUnits, annualUnits, CONFIG_volumeDurationWeight]
  norm_num [max_def, min_def]

theorem eval_vd76 : volumeDiscount CONFIG (237/2) = 0 := by
  simp only [volumeDiscount, CONFIG_volumeTiers, volumeDiscountAux]
  norm_num

theorem eval_vd77 : volumeDiscount CONFIG 120 = 1/10 := by
  simp only [volumeDiscount, CONFIG_volumeTiers, volumeDiscountAux]
  norm_num

theorem eval_y1p76 (c : ℕ) : year1Price CONFIG (1/2) 76 c 0 = 4300 := by
  have hbp : year1BasePrice CONFIG (1/2) 76 = 2400 := by
    simp only [year1BasePrice, CONFIG_year1FixedPrice, CONFIG_year1VolumeFactor,
      eval_dbu76, eval_vd76]
    rw [show (2400 : ℝ) * (1 - 0 * (1/2)) = 2400 by ring]
    exact roundUp50_eq 120 (by norm_num [Int.ceil_eq_iff]) (by norm_num)
  simp only [year1Price, year1ShiftAmount_zero, sub_zero, CONFIG_licenseYear1,
    hbp]
  rw [show max (0:ℝ) 2400 + 1900 = 4300 by norm_num [max_def]]
  exact roundUp50_eq 215 (by norm_num [Int.ceil_eq_iff]) (by norm_num)

theorem eval_y1p77 (c : ℕ) : year1Price CONFIG (1/2) 77 c 0 = 4180 := by
  have hbp : year1BasePrice CONFIG (1/2) 77 = 2280 := by
    simp only [year1BasePrice, CONFIG_year1FixedPrice, CONFIG_year1VolumeFactor,
      eval_dbu77, eval_vd77]
    rw [show (2400 : ℝ) * (1 - 1/10 * (1/2)) = 2280 by ring]
    exact roundUp50_eq 114 (by norm_num [Int.ceil_eq_iff]) (by norm_num)
  simp only [year1Price, year1ShiftAmount_zero, sub_zero, CONFIG_licenseYear1,
    hbp]
  rw [show max (0:ℝ) 2280 + 1900 = 4180 by norm_num [max_def]]
  exact roundUp50_eq 209 (by norm_num [Int.ceil_eq_iff]) (by norm_num)

theorem eval_ovh76 : overheadBlended CONFIG 10 (1/2) 76 0 =
    103753377775/52378326 := by
  simp only [overheadBlended, CONFIG_overheadYear1Factor, mul_zero, sub_zero,
    CONFIG_overheadCreditYears]
  rw [if_neg (by norm_num), eval_obb (by norm_num), eval_y1p76,
    eval_y1cost (by norm_num), if_pos (by norm_num : (0:ℝ) < 4)]
  norm_num [max_def, min_def]

theorem eval_ovh77 : overheadBlended CONFIG 10 (1/2) 77 0 =
    105324727555/52378326 := by
  simp only [overheadBlended, CONFIG_overheadYear1Factor, mul_zero, sub_zero,
    CONFIG_overheadCreditYears]
  rw [if_neg (by norm_num), eval_obb (by norm_num), eval_y1p77,
    eval_y1cost (by norm_num), if_pos (by norm_num : (0:ℝ) < 4)]
  norm_num [max_def, min_def]

theorem eval_cd10 : contractDiscount CONFIG 10 = 7/100 := by
  simp only [contractDiscount, CONFIG_contractDiscounts, lookupDiscount]
  norm_num

theorem eval_lp76 (c : ℕ) : year2ListPrice CONFIG (1/2) 76 c 0 =
    13542515475184/4059320265 := by
  simp only [year2ListPrice, year2MinNetPrice, CONFIG_year2BaselineYears,
    CONFIG_marginYear2Plus]
  rw [show (max 2 10 : ℕ) = 10 from rfl, eval_costBlended (by norm_num),
    eval_ovh76, eval_dbu76, eval_vd76, eval_cd10]
  norm_num [max_def]

theorem eval_lp77 (c : ℕ) : year2ListPrice CONFIG (1/2) 77 c 0 =
    13699650453184/3622834215 := by
  simp only [year2ListPrice, year2MinNetPrice, CONFIG_year2BaselineYears,
    CONFIG_marginYear2Plus]
  rw [show (max 2 10 : ℕ) = 10 from rfl, eval_costBlended (by norm_num),
    eval_ovh77, eval_dbu77, eval_vd77, eval_cd10]
  norm_num [max_def]

end SRS

namespace SRS

theorem eval_cd3 : contractDiscount CONFIG 3 = 1/50 := by
  simp only [contractDiscount, CONFIG_contractDiscounts, lookupDiscount]
  norm_num

theorem eval_cd5 : contractDiscount CONFIG 5 = 3/50 := by
  simp only [contractDiscount, CONFIG_contractDiscounts, lookupDiscount]
  norm_num

theorem eval_raw76_3 : year2PriceRaw CONFIG (1/2) 76 3 0 = 3570 := by
  simp only [year2PriceRaw, CONFIG_licenseYear2Plus, year1ShiftPerYear_zero,
    add_zero, eval_lp76, eval_dbu76, eval_vd76, eval_cd3]
  rw [show (13542515475184 : ℝ)/4059320265 * (1 - (0 + 1/50)) =
      47398804163144/14497572375 by norm_num]
  rw [roundUp50_eq 164 (by norm_num [Int.ceil_eq_iff])
    (show ((164 : ℤ) : ℝ) * 20 = 3280 by norm_num)]
  norm_num

theorem eval_raw76_5 : year2PriceRaw CONFIG (1/2) 76 5 0 = 3430 := by
  simp only [year2PriceRaw, CONFIG_licenseYear2Plus, year1ShiftPerYear_zero,
    add_zero, eval_lp76, eval_dbu76, eval_vd76, eval_cd5]
  rw [show (13542515475184 : ℝ)/4059320265 * (1 - (0 + 3/50)) =
      318249113666824/101483006625 by norm_num]
  rw [roundUp50_eq 157 (by norm_num [Int.ceil_eq_iff])
    (show ((157 : ℤ) : ℝ) * 20 = 3140 by norm_num)]
  norm_num

theorem eval_raw76_10 : year2PriceRaw CONFIG (1/2) 76 10 0 = 3410 := by
  simp only [year2PriceRaw, CONFIG_licenseYear2Plus, year1ShiftPerYear_zero,
    add_zero, eval_lp76, eval_dbu76, eval_vd76, eval_cd10]
  rw [show (13542515475184 : ℝ)/4059320265 * (1 - (0 + 7/100)) =
      3385628868796/1091215125 by norm_num]
  rw [roundUp50_eq 156 (by norm_num [Int.ceil_eq_iff])
    (show ((156 : ℤ) : ℝ) * 20 = 3120 by norm_num)]
  norm_num

theorem eval_raw77_3 : year2PriceRaw CONFIG (1/2) 77 3 0 = 3630 := by
  simp only [year2PriceRaw, CONFIG_licenseYear2Plus, year1ShiftPerYear_zero,
    add_zero, eval_lp77, eval_dbu77, eval_vd77, eval_cd3]
  rw [show (13699650453184 : ℝ)/3622834215 * (1 - (1/10 + 1/50)) =
      27399300906368/8233714125 by norm_num]
  rw [roundUp50_eq 167 (by norm_num [Int.ceil_eq_iff])
    (show ((167 : ℤ) : ℝ) * 20 = 3340 by norm_num)]
  norm_num

theorem eval_raw77_5 : year2PriceRaw CONFIG (1/2) 77 5 0 = 3470 := by
  simp only [year2PriceRaw, CONFIG_licenseYear2Plus, year1ShiftPerYear_zero,
    add_zero, eval_lp77, eval_dbu77, eval_vd77, eval_cd5]
  rw [show (13699650453184 : ℝ)/3622834215 * (1 - (1/10 + 3/50)) =
      13699650453184/4312897875 by norm_num]
  rw [roundUp50_eq 159 (by norm_num [Int.ceil_eq_iff])
    (show ((159 : ℤ) : ℝ) * 20 = 3180 by norm_num)]
  norm_num

theorem eval_raw77_10 : year2PriceRaw CONFIG (1/2) 77 10 0 = 3430 := by
  simp only [year2PriceRaw, CONFIG_licenseYear2Plus, year1ShiftPerYear_zero,
    add_zero, eval_lp77, eval_dbu77, eval_vd77, eval_cd10]
  rw [show (13699650453184 : ℝ)/3622834215 * (1 - (1/10 + 7/100)) =
      3424912613296/1091215125 by norm_num]
  rw [roundUp50_eq 157 (by norm_num [Int.ceil_eq_iff])
    (show ((157 : ℤ) : ℝ) * 20 = 3140 by norm_num)]
  norm_num

theorem eval_y2p76 : year2Price CONFIG (1/2) 76 3 0 = 3580 := by
  simp only [year2Price, CONFIG_year2MinGap]
  rw [if_neg (by norm_num : ¬ (20:ℝ) ≤ 0),
    show sortedTerms CONFIG = [3, 5, 10] from rfl]
  rw [if_pos (by decide : 3 ∈ [3, 5, 10])]
  simp only [List.reverse_cons, List.reverse_nil, List.nil_append,
    List.cons_append, adjustWalk, lookupAdjusted, eval_raw76_3, eval_raw76_5,
    eval_raw76_10]
  norm_num [max_def]
  rw [roundUp50_eq 179 (by norm_num [Int.ceil_eq_iff])
    (show ((179 : ℤ) : ℝ) * 20 = 3580 by norm_num)]

theorem eval_y2p77 : year2Price CONFIG (1/2) 77 3 0 = 3640 := by
  simp only [year2Price, CONFIG_year2MinGap]
  rw [if_neg (by norm_num : ¬ (20:ℝ) ≤ 0),
    show sortedTerms CONFIG = [3, 5, 10] from rfl]
  rw [if_pos (by decide : 3 ∈ [3, 5, 10])]
  simp only [List.reverse_cons, List.reverse_nil, List.nil_append,
    List.cons_append, adjustWalk, lookupAdjusted, eval_raw77_3, eval_raw77_5,
    eval_raw77_10]
  norm_num [max_def]
  rw [roundUp50_eq 182 (by norm_num [Int.ceil_eq_iff])
    (show ((182 : ℤ) : ℝ) * 20 = 3640 by norm_num)]

end SRS

/-- Counterexample to C5 as stated: at rate one half, no existing fleet and
a 3-year contract (a configured key), raising the commitment from 76 to 77
years raises the Year-2+ price from 3580 to 3640 - an increase of 60,
three rounding increments, far beyond the claimed one-increment epsilon. -/
theorem C5_counterexample :
    SRS.year2Price SRS.CONFIG (1/2) 76 3 0 = 3580 ∧
    SRS.year2Price SRS.CONFIG (1/2) 77 3 0 = 3640 ∧
    SRS.year2Price SRS.CONFIG (1/2) 77 3 0 >
      SRS.year2Price SRS.CONFIG (1/2) 76 3 0 + 20 := by
  refine ⟨SRS.eval_y2p76, SRS.eval_y2p77, ?_⟩
  rw [SRS.eval_y2p76, SRS.eval_y2p77]
  norm_num
